import Mathlib

/-!
# ProfileParse: job queue, lifecycle and question pipeline

A shallow embedding of the Express/Mongoose handlers of the server
(`jobController.js`, `questionController.js`, `resumeController.js`) over an
explicit store, followed by the properties proved about them.

Modelling conventions.

* A collection is the list of its documents in insertion (natural) order.
  Documents are never deleted by any handler.
* A handler is a function from the store, the request and the reading of the
  clock to a response and the store afterwards. One request reads the clock
  once: every `new Date()` of a request and the timestamps Mongoose stamps for
  it are the same instant `now`.
* Request fields that a handler inspects with `typeof`, truthiness or set
  membership are untyped JavaScript values (`JVal`). Fields a handler hands to
  the store without looking at them are typed as the schema declares them.
* JavaScript numbers are idealised as integers.
* Fresh `ObjectId`s are drawn from a counter kept with the store.
* A sorted query fixes the order of documents only as far as its sort key
  does; the order among documents of equal key is an input of the call
  (`TieOrder`), like the clock.
-/

set_option autoImplicit false

namespace ProfileParse

/-! ## JavaScript values -/

/-- A JavaScript value as found in a parsed JSON body; `undefined` is what
reading an absent property yields. -/
inductive JVal where
  | undefined
  | null
  | bool (b : Bool)
  | num (n : Int)
  | str (s : String)
  | arr (items : List JVal)
  | obj (fields : List (String × JVal))

namespace JVal

/-- JavaScript truthiness (`if (v)`, `!v`, `v && ...`, `v || ...`). -/
def truthy : JVal → Bool
  | undefined => false
  | null => false
  | bool b => b
  | num n => n != 0
  | str s => s != ""
  | arr _ => true
  | obj _ => true

/-- The test `typeof v === "string"`. -/
def isString : JVal → Bool
  | str _ => true
  | _ => false

/-- The test `typeof v === "number"`. -/
def isNumber : JVal → Bool
  | num _ => true
  | _ => false

/-- The test `v !== undefined`. -/
def isDefined : JVal → Bool
  | undefined => false
  | _ => true

/-- Strict equality `v === lit` against a string literal. -/
def eqStr (v : JVal) (lit : String) : Bool :=
  match v with
  | str s => s == lit
  | _ => false

/-- Membership of `v` in a set or array of string literals
(`Set.prototype.has`, `Array.prototype.includes`). -/
def inStrings (v : JVal) (lits : List String) : Bool :=
  lits.any (fun lit => v.eqStr lit)

/-- Mongoose's cast of a primitive to a `String` path: `null` and `undefined`
stay null, strings are kept, numbers and booleans go through `toString()`.
Arrays and objects are never passed here by the handlers below. -/
def castString : JVal → Option String
  | str s => some s
  | num n => some (toString n)
  | bool b => some (toString b)
  | _ => none

/-- Mongoose's cast of a JavaScript number to a `Number` path. -/
def castNumber : JVal → Int
  | num n => n
  | _ => 0

end JVal

/-- A typed request field: absent (`undefined`), JSON `null`, or a value. -/
inductive Field (α : Type) where
  | undefined
  | null
  | val (a : α)
  deriving DecidableEq

/-- The value a `$set` of a present field stores (`null` clears the path). -/
def Field.stored {α : Type} : Field α → Option α
  | Field.val a => some a
  | _ => none

/-- The field carries a value (it is neither absent nor `null`). -/
def Field.isValue {α : Type} : Field α → Bool
  | Field.val _ => true
  | _ => false

/-- The test `f !== undefined` on a typed field. -/
def Field.isDefined {α : Type} : Field α → Bool
  | Field.undefined => false
  | _ => true

/-- Truthiness of a string-or-absent value: a non-empty string. -/
def strTruthy (a : Option String) : Bool :=
  match a with
  | some s => s != ""
  | none => false

/-- The expression `a || d` for a string-or-absent `a` and a default `d`. -/
def orDefault (a : Option String) (d : String) : String :=
  match a with
  | some s => if s != "" then s else d
  | none => d

/-! ## Data model (the Mongoose schemas) -/

abbrev Id := Nat

abbrev Date := Int

/-- A document of `ProcessingJob` (`models/ProcessingJob.js`, with the
`createdAt`/`updatedAt` pair of `timestamps: true`). -/
structure Job where
  _id : Id
  type : String
  status : Option String
  resumeId : Option Id
  profileId : Option Id
  questionSetId : Option Id
  lockedBy : Option String
  lockedAt : Option Date
  startedAt : Option Date
  completedAt : Option Date
  attempts : Int
  lastError : Option String
  createdAt : Date
  updatedAt : Date
  deriving DecidableEq, Repr

/-- A document of `UserProfile` (`models/UserProfile.js`). -/
structure UserProfile where
  _id : Id
  resumeId : Option Id
  skills : List String
  projects : List String
  experience : List String
  status : String
  source : String
  validatedAt : Option Date
  createdAt : Date
  updatedAt : Date
  deriving DecidableEq, Repr

/-- A document of `Resume` (`models/Resume.js`). -/
structure Resume where
  _id : Id
  originalName : String
  mimeType : String
  size : Nat
  text : String
  status : String
  profileId : Option Id
  createdAt : Date
  updatedAt : Date
  deriving DecidableEq, Repr

/-- A raw element of `QuestionSet.questions` as `.lean()` reads it: the five
schema paths plus the `category`/`text` pair of older documents. -/
structure Question where
  section_ : Option String
  question : Option String
  answer : Option String
  difficulty : Option String
  tags : Option (List String)
  category : Option String
  text : Option String
  deriving DecidableEq, Repr

/-- A document of `QuestionSet` (`models/QuestionSet.js`). -/
structure QuestionSet where
  _id : Id
  profileId : Id
  questions : List Question
  status : String
  promptVersion : Option String
  createdAt : Date
  updatedAt : Date
  deriving DecidableEq, Repr

/-- The database: the four collections and the supply of fresh ids. -/
structure Store where
  jobs : List Job
  profiles : List UserProfile
  resumes : List Resume
  questionSets : List QuestionSet
  nextId : Id
  deriving DecidableEq, Repr

/-- The database before any request. -/
def Store.empty : Store :=
  { jobs := [], profiles := [], resumes := [], questionSets := [], nextId := 0 }

/-- What a handler sends back: `res.status(c).json(body)`,
`res.status(c).json({ error })` or `res.status(c).send()`. -/
inductive Resp (α : Type) where
  | json (code : Nat) (body : α)
  | error (code : Nat) (error : String)
  | empty (code : Nat)
  deriving DecidableEq, Repr

/-- HTTP status code of a response. -/
def Resp.code {α : Type} : Resp α → Nat
  | Resp.json c _ => c
  | Resp.error c _ => c
  | Resp.empty c => c

/-! ## Store primitives (the Mongoose calls the handlers make) -/

/-- The call `Model.findOne(filter)` without a sort: the first matching
document in natural order. -/
def findOne {α : Type} (p : α → Bool) (docs : List α) : Option α :=
  docs.find? p

/-- Replace the first document satisfying `p` by its image under `u`
(`findByIdAndUpdate`, `findOneAndUpdate` without a sort, `doc.save()`);
the updated document is returned next to the collection, `none` when no
document matches. -/
def updateFirst {α : Type} (p : α → Bool) (u : α → α) :
    List α → Option (α × List α)
  | [] => none
  | d :: ds =>
    if p d then some (u d, u d :: ds)
    else
      match updateFirst p u ds with
      | some (d', ds') => some (d', d :: ds')
      | none => none

/-- The order in which the database returns documents whose sort keys are
equal. A sort on `{ createdAt: 1 }` alone fixes none, so it is an input of the
model: `tie j k` tells whether `j`, inserted before `k` and sharing its
`createdAt`, is the one returned. -/
abbrev TieOrder := Job → Job → Bool

/-- The call `ProcessingJob.findOneAndUpdate(filter, update,
{ returnDocument: "after", sort: { createdAt: 1 } })`: among the documents
matching `p` one with the least `createdAt` is updated; among several of that
`createdAt` the choice is the database's (`tie`). The result is the document
as it was, the document after the update and the collection afterwards. -/
def findOldestAndUpdate (tie : TieOrder) (p : Job → Bool) (u : Job → Job) :
    List Job → Option (Job × Job × List Job)
  | [] => none
  | j :: js =>
    match findOldestAndUpdate tie p u js with
    | none => if p j then some (j, u j, u j :: js) else none
    | some (k, k', js') =>
      if p j && (decide (j.createdAt < k.createdAt) ||
          (decide (j.createdAt = k.createdAt) && tie j k)) then
        some (j, u j, u j :: js)
      else some (k, k', j :: js')

/-! ## `controllers/jobController.js` -/

/-- The set `VALID_STATUSES` of the job controller. -/
def VALID_STATUSES : List String :=
  ["queued", "in_progress", "completed", "failed"]

/-- Body of `POST /api/jobs/claim`. -/
structure ClaimBody where
  types : JVal
  workerId : JVal

/-- The filter `{ status: "queued", type: { $in: types } }`. -/
def claimFilter (types : List JVal) (j : Job) : Bool :=
  j.status == some "queued" && types.any (fun t => t.eqStr j.type)

/-- The update `{ $set: { status, lockedBy, lockedAt, startedAt },
$inc: { attempts: 1 } }` of a claim, with the `updatedAt` stamp. -/
def claimUpdate (workerId : String) (now : Date) (j : Job) : Job :=
  { j with
    status := some "in_progress"
    lockedBy := some workerId
    lockedAt := some now
    startedAt := some now
    attempts := j.attempts + 1
    updatedAt := now }

/-- The handler `claimJob`. The test `!workerId || typeof workerId !==
"string"` lets through exactly the non-empty strings. Besides the clock the
call takes the order the database applies among jobs of equal `createdAt`. -/
def claimJob (s : Store) (body : ClaimBody) (now : Date) (tie : TieOrder) :
    Resp Job × Store :=
  match body.types with
  | JVal.arr types =>
    if types.length == 0 then
      (Resp.error 400 "types must be a non-empty array", s)
    else
      let invalidTypes :=
        types.filter (fun t => !t.eqStr "parse_resume" && !t.eqStr "generate_questions")
      if invalidTypes.length > 0 then
        (Resp.error 400 "Invalid job type in types array", s)
      else
        match body.workerId with
        | JVal.str workerId =>
          if workerId == "" then (Resp.error 400 "workerId is required", s)
          else
            match findOldestAndUpdate tie (claimFilter types) (claimUpdate workerId now)
                s.jobs with
            | none => (Resp.empty 204, s)
            | some (_, claimed, jobs) => (Resp.json 200 claimed, { s with jobs := jobs })
        | _ => (Resp.error 400 "workerId is required", s)
  | _ => (Resp.error 400 "types must be a non-empty array", s)

/-- Body of `PATCH /api/jobs/:id`. -/
structure UpdateJobBody where
  status : JVal
  lastError : Field String
  attempts : JVal
  lockedBy : Field String
  lockedAt : Field Date

/-- The object `updates` built by `updateJob`: for each path, the value to
set when the path is present. -/
structure JobUpdates where
  status : Option (Option String)
  lastError : Option (Option String)
  attempts : Option Int
  lockedBy : Option (Option String)
  lockedAt : Option (Option Date)
  completedAt : Option (Option Date)

/-- Apply `updates` to a job document (with the `updatedAt` stamp). -/
def JobUpdates.apply (u : JobUpdates) (now : Date) (j : Job) : Job :=
  { j with
    status := u.status.getD j.status
    lastError := u.lastError.getD j.lastError
    attempts := u.attempts.getD j.attempts
    lockedBy := u.lockedBy.getD j.lockedBy
    lockedAt := u.lockedAt.getD j.lockedAt
    completedAt := u.completedAt.getD j.completedAt
    updatedAt := now }

/-- The assignments to `updates` in `updateJob` (lines 117-133). -/
def buildJobUpdates (body : UpdateJobBody) (now : Date) : JobUpdates :=
  let u0 : JobUpdates :=
    { status := if body.status.isDefined then some body.status.castString else none
      lastError := if body.lastError.isDefined then some body.lastError.stored else none
      attempts := if body.attempts.isDefined then some body.attempts.castNumber else none
      lockedBy := if body.lockedBy.isDefined then some body.lockedBy.stored else none
      lockedAt := if body.lockedAt.isDefined then some body.lockedAt.stored else none
      completedAt := none }
  let u1 : JobUpdates :=
    if body.status.eqStr "completed" then
      { u0 with completedAt := some (some now), lockedBy := some none, lockedAt := some none }
    else u0
  if body.status.eqStr "failed" || body.status.eqStr "queued" then
    { u1 with lockedBy := some none, lockedAt := some none }
  else u1

/-- The handler `updateJob`; `findByIdAndUpdate` rewrites the first job with
the id and runs no schema validator (`runValidators` is not set). -/
def updateJob (s : Store) (id : Id) (body : UpdateJobBody) (now : Date) :
    Resp Job × Store :=
  if body.status.truthy && !body.status.inStrings VALID_STATUSES then
    (Resp.error 400 "Invalid status value", s)
  else if body.attempts.isDefined && !body.attempts.isNumber then
    (Resp.error 400 "attempts must be a number", s)
  else
    match updateFirst (fun j => j._id == id) ((buildJobUpdates body now).apply now) s.jobs with
    | none => (Resp.error 404 "Job not found", s)
    | some (updated, jobs) => (Resp.json 200 updated, { s with jobs := jobs })

/-! ## `controllers/questionController.js` -/

/-- The function `normalizeQuestion`: a record with a truthy `question` is
returned as it is, any other record is rebuilt from `category`/`text`. -/
def normalizeQuestion (question : Question) : Question :=
  if strTruthy question.question then question
  else
    { section_ := some (orDefault question.category "experience")
      question := some (orDefault question.text "")
      answer := some (orDefault question.answer "")
      difficulty := some (orDefault question.difficulty "")
      tags := some (question.tags.getD [])
      category := none
      text := none }

/-- The handler `getQuestions` (a `.lean()` read: the store is handed back
untouched). -/
def getQuestions (s : Store) (profileId : Id) : Resp QuestionSet × Store :=
  match findOne (fun q => q.profileId == profileId) s.questionSets with
  | none => (Resp.error 404 "Question set not found", s)
  | some questionSet =>
    (Resp.json 200 { questionSet with questions := questionSet.questions.map normalizeQuestion }, s)

/-- An element of the `questions` array of a `PUT /api/questions/:profileId`
body: a JSON object whose `section`, `question` and `answer` are inspected by
the handler and whose `difficulty` and `tags` are passed on to the store
(an omitted `tags` is the empty array, as the array path defaults to). -/
structure QuestionInput where
  section_ : JVal
  question : JVal
  answer : JVal
  difficulty : Option String
  tags : List String

/-- Body of `PUT /api/questions/:profileId`; `questions = none` stands for a
`questions` that is not an array. -/
structure SaveQuestionsBody where
  questions : Option (List QuestionInput)
  status : JVal
  promptVersion : Option String

/-- The predicate of `questions.find(...)` in `saveQuestions`. Elements are
JSON objects here, for which `!q` is false. A falsy element (`null`, `0`,
`""`, `false`) is outside this input type: `find` would return it and
`if (invalidQuestion)` would then let the list through. -/
def invalidQuestion (q : QuestionInput) : Bool :=
  !q.question.isString || !q.answer.isString ||
    !q.section_.inStrings ["skills", "projects", "experience"]

/-- The subdocument stored for an accepted element (`questionSchema`). -/
def storeQuestion (q : QuestionInput) : Question :=
  { section_ := q.section_.castString
    question := q.question.castString
    answer := q.answer.castString
    difficulty := q.difficulty
    tags := some q.tags
    category := none
    text := none }

/-- The cascade `if (profile.resumeId) await Resume.findByIdAndUpdate(
profile.resumeId, { status })` of `saveQuestions` and `requestQuestions`. -/
def cascadeResumeStatus (s : Store) (resumeId : Option Id) (status : String) (now : Date) :
    Store :=
  match resumeId with
  | none => s
  | some id =>
    match updateFirst (fun r => r._id == id)
        (fun r => { r with status := status, updatedAt := now }) s.resumes with
    | some (_, resumes) => { s with resumes := resumes }
    | none => s

/-- The call `QuestionSet.findOneAndUpdate({ profileId }, { $set: { questions,
status, promptVersion } }, { returnDocument: "after", upsert: true,
setDefaultsOnInsert: true })`. -/
def upsertQuestionSet (s : Store) (profileId : Id) (questions : List Question)
    (status : String) (promptVersion : String) (now : Date) : QuestionSet × Store :=
  match updateFirst (fun q => q.profileId == profileId)
      (fun q => { q with
        questions := questions
        status := status
        promptVersion := some promptVersion
        updatedAt := now }) s.questionSets with
  | some (updated, sets) => (updated, { s with questionSets := sets })
  | none =>
    (⟨s.nextId, profileId, questions, status, some promptVersion, now, now⟩,
      { s with
        questionSets := s.questionSets ++
          [⟨s.nextId, profileId, questions, status, some promptVersion, now, now⟩]
        nextId := s.nextId + 1 })

/-- The handler `saveQuestions`. -/
def saveQuestions (s : Store) (profileId : Id) (body : SaveQuestionsBody) (now : Date) :
    Resp QuestionSet × Store :=
  match body.questions with
  | none => (Resp.error 400 "questions must be an array", s)
  | some questions =>
    match questions.find? invalidQuestion with
    | some _ =>
      (Resp.error 400
        "Each question must include section(skills|projects|experience), question, and answer", s)
    | none =>
      if body.status.truthy && !body.status.inStrings ["pending", "ready", "failed"] then
        (Resp.error 400 "Invalid question set status", s)
      else
        match findOne (fun p => p._id == profileId) s.profiles with
        | none => (Resp.error 404 "Profile not found", s)
        | some profile =>
          (Resp.json 200
            (upsertQuestionSet s profileId (questions.map storeQuestion)
              (if body.status.truthy then body.status.castString.getD "ready" else "ready")
              (orDefault body.promptVersion "v1") now).1,
            cascadeResumeStatus
              (upsertQuestionSet s profileId (questions.map storeQuestion)
                (if body.status.truthy then body.status.castString.getD "ready" else "ready")
                (orDefault body.promptVersion "v1") now).2
              profile.resumeId
              (if body.status.eqStr "failed" then "validated" else "questions_ready") now)

/-- JSON body of the `requestQuestions` answers. -/
structure RequestQuestionsReply where
  message : String
  questionSetId : Id
  jobId : Option Id
  status : String
  deriving DecidableEq, Repr

/-- Lines 122-129 of `requestQuestions`: the question set of the profile,
created `pending` and empty when the profile has none. -/
def findOrCreateQuestionSet (s : Store) (profileId : Id) (now : Date) : QuestionSet × Store :=
  match findOne (fun q => q.profileId == profileId) s.questionSets with
  | some questionSet => (questionSet, s)
  | none =>
    (⟨s.nextId, profileId, [], "pending", none, now, now⟩,
      { s with
        questionSets := s.questionSets ++ [⟨s.nextId, profileId, [], "pending", none, now, now⟩]
        nextId := s.nextId + 1 })

/-- The filter `{ type: "generate_questions", profileId, status: { $in:
["queued", "in_progress"] } }` of `requestQuestions`. -/
def inFlightFilter (profileId : Id) (j : Job) : Bool :=
  j.type == "generate_questions" && j.profileId == some profileId &&
    (j.status == some "queued" || j.status == some "in_progress")

/-- The document `ProcessingJob.create({ type: "generate_questions", status:
"queued", profileId, questionSetId })` inserts. -/
def newGenerateJob (id : Id) (profileId : Id) (questionSetId : Id) (now : Date) : Job :=
  { _id := id
    type := "generate_questions"
    status := some "queued"
    resumeId := none
    profileId := some profileId
    questionSetId := some questionSetId
    lockedBy := none
    lockedAt := none
    startedAt := none
    completedAt := none
    attempts := 0
    lastError := none
    createdAt := now
    updatedAt := now }

/-- The handler `requestQuestions`. -/
def requestQuestions (s : Store) (profileId : Id) (now : Date) :
    Resp RequestQuestionsReply × Store :=
  match findOne (fun p => p._id == profileId) s.profiles with
  | none => (Resp.error 404 "Profile not found", s)
  | some profile =>
    if profile.status != "validated" then
      (Resp.error 400 "Profile must be validated before generating questions", s)
    else
      let questionSet := (findOrCreateQuestionSet s profileId now).1
      let s1 := (findOrCreateQuestionSet s profileId now).2
      if questionSet.status == "ready" then
        (Resp.json 200
          { message := "Questions already available"
            questionSetId := questionSet._id
            jobId := none
            status := questionSet.status }, s1)
      else
        match findOne (inFlightFilter profileId) s1.jobs with
        | some existingJob =>
          (Resp.json 202
            { message := "Question generation already queued"
              questionSetId := questionSet._id
              jobId := some existingJob._id
              status := questionSet.status }, s1)
        | none =>
          (Resp.json 202
            { message := "Question generation queued"
              questionSetId := questionSet._id
              jobId := some s1.nextId
              status := questionSet.status },
            cascadeResumeStatus
              { s1 with
                jobs := s1.jobs ++ [newGenerateJob s1.nextId profileId questionSet._id now]
                nextId := s1.nextId + 1 }
              profile.resumeId "questions_pending" now)

/-! ## `controllers/resumeController.js` -/

/-- The set `SUPPORTED_MIME_TYPES`. -/
def SUPPORTED_MIME_TYPES : List String :=
  ["application/pdf",
   "application/vnd.openxmlformats-officedocument.wordprocessingml.document"]

/-- The file multer puts in `req.file`, with the text the external extraction
library (`pdf-parse` or `mammoth`) yields for its buffer. -/
structure UploadedFile where
  originalname : String
  mimetype : String
  size : Nat
  libraryText : String

/-- The function `extractTextFromFile`. -/
def extractTextFromFile (file : UploadedFile) : String :=
  if file.mimetype == "application/pdf" then file.libraryText
  else if file.mimetype ==
      "application/vnd.openxmlformats-officedocument.wordprocessingml.document" then
    file.libraryText
  else ""

/-- White space and line terminators, the characters `String.prototype.trim`
strips. -/
def isJsWhiteSpace (c : Char) : Bool :=
  let n := c.toNat
  n == 0x9 || n == 0xA || n == 0xB || n == 0xC || n == 0xD || n == 0x20 || n == 0xA0 ||
    n == 0x1680 || (0x2000 ≤ n && n ≤ 0x200A) || n == 0x2028 || n == 0x2029 || n == 0x202F ||
    n == 0x205F || n == 0x3000 || n == 0xFEFF

/-- The method `String.prototype.trim`. -/
def jsTrim (s : String) : String :=
  String.mk ((s.toList.dropWhile isJsWhiteSpace).reverse.dropWhile isJsWhiteSpace).reverse

/-- The property `length` of a JavaScript string: UTF-16 code units. -/
def jsLength (s : String) : Nat :=
  (s.toList.map (fun c => if c.toNat < 0x10000 then 1 else 2)).sum

/-- JSON body of the `201` answer of `uploadResume`. -/
structure UploadReply where
  message : String
  resumeId : Id
  profileId : Id
  parseJobId : Id
  deriving DecidableEq, Repr

/-- The handler `uploadResume`. -/
def uploadResume (s : Store) (reqFile : Option UploadedFile) (now : Date) :
    Resp UploadReply × Store :=
  match reqFile with
  | none => (Resp.error 400 "File missing", s)
  | some file =>
    if !SUPPORTED_MIME_TYPES.contains file.mimetype then
      (Resp.error 400 "Unsupported file type", s)
    else
      let text := jsTrim (extractTextFromFile file)
      if text == "" || jsLength text < 50 then
        (Resp.error 400 "Extraction failed", s)
      else
        let resume : Resume :=
          { _id := s.nextId
            originalName := file.originalname
            mimeType := file.mimetype
            size := file.size
            text := text
            status := "uploaded"
            profileId := none
            createdAt := now
            updatedAt := now }
        let profile : UserProfile :=
          { _id := s.nextId + 1
            resumeId := some resume._id
            skills := []
            projects := []
            experience := []
            status := "draft"
            source := "manual"
            validatedAt := none
            createdAt := now
            updatedAt := now }
        -- `resume.profileId = profile._id; await resume.save()` on the new document
        let saved : Resume := { resume with profileId := some profile._id, updatedAt := now }
        let parseJob : Job :=
          { _id := s.nextId + 2
            type := "parse_resume"
            status := some "queued"
            resumeId := some resume._id
            profileId := some profile._id
            questionSetId := none
            lockedBy := none
            lockedAt := none
            startedAt := none
            completedAt := none
            attempts := 0
            lastError := none
            createdAt := now
            updatedAt := now }
        (Resp.json 201
          { message := "Resume uploaded"
            resumeId := resume._id
            profileId := profile._id
            parseJobId := parseJob._id },
          { s with
            resumes := s.resumes ++ [saved]
            profiles := s.profiles ++ [profile]
            jobs := s.jobs ++ [parseJob]
            nextId := s.nextId + 3 })

/-! ## Requests as steps of a trace -/

/-- A request that may write the store. `nonJobWrite` stands for the handlers
that never touch the job collection (`updateProfile` and any other write to
profiles, resumes and question sets): it replaces those three collections and
may draw fresh ids. -/
inductive Op where
  | uploadResume (reqFile : Option UploadedFile) (now : Date)
  | requestQuestions (profileId : Id) (now : Date)
  | claimJob (body : ClaimBody) (now : Date) (tie : TieOrder)
  | updateJob (id : Id) (body : UpdateJobBody) (now : Date)
  | saveQuestions (profileId : Id) (body : SaveQuestionsBody) (now : Date)
  | nonJobWrite (profiles : List UserProfile) (resumes : List Resume)
      (questionSets : List QuestionSet) (drawn : Nat)

/-- The store after one request. -/
def step (s : Store) : Op → Store
  | Op.uploadResume reqFile now => (uploadResume s reqFile now).2
  | Op.requestQuestions profileId now => (requestQuestions s profileId now).2
  | Op.claimJob body now tie => (claimJob s body now tie).2
  | Op.updateJob id body now => (updateJob s id body now).2
  | Op.saveQuestions profileId body now => (saveQuestions s profileId body now).2
  | Op.nonJobWrite profiles resumes questionSets drawn =>
    { s with
      profiles := profiles
      resumes := resumes
      questionSets := questionSets
      nextId := s.nextId + drawn }

/-- The store after a sequence of requests served one after the other. -/
def run (s : Store) (ops : List Op) : Store :=
  ops.foldl step s

/-- Job ids are pairwise distinct and were all drawn from the id supply (the
uniqueness of `_id` the database guarantees). -/
def Store.WellFormed (s : Store) : Prop :=
  (s.jobs.map (fun j => j._id)).Nodup ∧ ∀ j ∈ s.jobs, j._id < s.nextId

instance (s : Store) : Decidable s.WellFormed :=
  inferInstanceAs (Decidable (_ ∧ _))

/-- An `updateJob` request that sets job `jobId` back to `queued`: it names
that job, its body asks for the status `queued` and passes the `attempts`
check. -/
def Op.requeues (jobId : Id) : Op → Bool
  | Op.updateJob id body _ =>
    id == jobId && body.status.eqStr "queued" &&
      !(body.attempts.isDefined && !body.attempts.isNumber)
  | _ => false

/-- The lock invariant of a job document: both lock fields are set when the
job is `in_progress`, both are null otherwise. -/
def Job.lockConsistent (j : Job) : Prop :=
  (j.status = some "in_progress" → j.lockedBy ≠ none ∧ j.lockedAt ≠ none) ∧
  (j.status ≠ some "in_progress" → j.lockedBy = none ∧ j.lockedAt = none)

/-- An `updateJob` body that moves the job to `completed`, `failed` or
`queued`, or sets `in_progress` together with a `lockedBy` and a `lockedAt`
value, or carries none of `status`, `lockedBy` and `lockedAt`. -/
def UpdateJobBody.respectsLock (body : UpdateJobBody) : Bool :=
  body.status.eqStr "completed" || body.status.eqStr "failed" || body.status.eqStr "queued" ||
    (body.status.eqStr "in_progress" && body.lockedBy.isValue && body.lockedAt.isValue) ||
    (!body.status.isDefined && !body.lockedBy.isDefined && !body.lockedAt.isDefined)

/-- A request that is not an `updateJob`, or an `updateJob` whose body
respects the lock. -/
def Op.respectsLock : Op → Bool
  | Op.updateJob _ body _ => body.respectsLock
  | _ => true

/-! ## Concrete stores and requests used to exercise the theorems -/

/-- A job document with the given identity, type, status, attempt count and
creation instant, and every optional path unset. -/
def mkJob (id : Id) (type : String) (status : String) (attempts : Int) (createdAt : Date) : Job :=
  { _id := id
    type := type
    status := some status
    resumeId := none
    profileId := none
    questionSetId := none
    lockedBy := none
    lockedAt := none
    startedAt := none
    completedAt := none
    attempts := attempts
    lastError := none
    createdAt := createdAt
    updatedAt := createdAt }

/-- A store holding the given jobs and nothing else. -/
def storeOfJobs (jobs : List Job) (nextId : Id) : Store :=
  { jobs := jobs, profiles := [], resumes := [], questionSets := [], nextId := nextId }

/-- The database returns documents of equal sort key in insertion order. -/
def insertionOrder : TieOrder :=
  fun _ _ => true

/-- The database returns documents of equal sort key latest insertion
first. -/
def latestFirst : TieOrder :=
  fun _ _ => false

/-- Two queued `parse_resume` jobs created at the same instant; job 0 was
inserted first. -/
def tiedStore : Store :=
  storeOfJobs
    [mkJob 0 "parse_resume" "queued" 0 10,
     mkJob 1 "parse_resume" "queued" 0 10] 2

/-- Three queued jobs; the second is the oldest `parse_resume` job. -/
def queueStore : Store :=
  storeOfJobs
    [mkJob 0 "parse_resume" "queued" 0 20,
     mkJob 1 "parse_resume" "queued" 0 10,
     mkJob 2 "generate_questions" "queued" 0 5] 3

/-- The body `{ types: ["parse_resume"], workerId }`. -/
def parseClaim (workerId : String) : ClaimBody :=
  { types := JVal.arr [JVal.str "parse_resume"], workerId := JVal.str workerId }

/-- A profile document with the given identity, resume and status. -/
def mkProfile (id : Id) (resumeId : Option Id) (status : String) : UserProfile :=
  { _id := id
    resumeId := resumeId
    skills := []
    projects := []
    experience := []
    status := status
    source := "manual"
    validatedAt := none
    createdAt := 0
    updatedAt := 0 }

/-- A store with one resume and its profile in the given status, no job and
no question set. -/
def profileStore (status : String) : Store :=
  { jobs := []
    profiles := [mkProfile 1 (some 0) status]
    resumes := [⟨0, "cv.pdf", "application/pdf", 2048, "text of the resume", "uploaded", some 1, 0, 0⟩]
    questionSets := []
    nextId := 2 }

/-- A store whose single job is in progress, claimed by worker `w1` at
instant 30. -/
def lockedStore : Store :=
  storeOfJobs [claimUpdate "w1" 30 (mkJob 0 "parse_resume" "queued" 0 10)] 1

/-- The body `{ status }` of an `updateJob` request. -/
def statusBody (status : JVal) : UpdateJobBody :=
  { status := status
    lastError := Field.undefined
    attempts := JVal.undefined
    lockedBy := Field.undefined
    lockedAt := Field.undefined }

/-- The body `{ questions }` of a `saveQuestions` request. -/
def questionsBody (questions : List QuestionInput) : SaveQuestionsBody :=
  { questions := some questions, status := JVal.undefined, promptVersion := none }

/-- The element `{ section: "skills", question, answer: "A" }`. -/
def skillsQuestion (question : String) : QuestionInput :=
  { section_ := JVal.str "skills"
    question := JVal.str question
    answer := JVal.str "A"
    difficulty := none
    tags := [] }

/-- An older question record `{ category, text }`. -/
def legacyQuestion (category : Option String) (text : Option String) : Question :=
  { section_ := none
    question := none
    answer := none
    difficulty := none
    tags := none
    category := category
    text := text }

/-- A PDF upload whose extracted text has more than 50 characters. -/
def sampleFile : UploadedFile :=
  { originalname := "cv.pdf"
    mimetype := "application/pdf"
    size := 2048
    libraryText := "  Jane Doe. Backend engineer, 8 years of Go and PostgreSQL experience.  " }

/-- Upload, claim by `w1`, failure: every `updateJob` body moves to a final
status. -/
def disciplinedTrace : List Op :=
  [Op.uploadResume (some sampleFile) 100,
   Op.claimJob (parseClaim "w1") 110 insertionOrder,
   Op.updateJob 2 { statusBody (JVal.str "failed") with lastError := Field.val "timeout" } 120]

/-- Upload, then an `updateJob` that sets `in_progress` by hand. -/
def handLockedTrace : List Op :=
  [Op.uploadResume (some sampleFile) 100,
   Op.updateJob 2 (statusBody (JVal.str "in_progress")) 110]

/-- Upload, claim by `w0`, then `updateJob` back to `queued`: the retry
path. Its store holds one queued `parse_resume` job whose `attempts` is 1. -/
def retryTrace : List Op :=
  [Op.uploadResume (some sampleFile) 100,
   Op.claimJob (parseClaim "w0") 110 insertionOrder,
   Op.updateJob 2 (statusBody (JVal.str "queued")) 120]

/-- The store the retry path leaves. -/
def requeuedStore : Store :=
  run Store.empty retryTrace

/-- A store whose single job is a queued `parse_resume` job never claimed. -/
def singleJobStore : Store :=
  storeOfJobs [mkJob 0 "parse_resume" "queued" 0 10] 1

/-- A PDF upload whose extracted text has 10 characters. -/
def shortFile : UploadedFile :=
  { originalname := "note.pdf"
    mimetype := "application/pdf"
    size := 512
    libraryText := "short text" }

/-- An upload of a content type outside `SUPPORTED_MIME_TYPES`. -/
def plainTextFile : UploadedFile :=
  { sampleFile with originalname := "cv.txt", mimetype := "text/plain" }

/-! ## Facts about the store primitives -/

theorem findOldestAndUpdate_eq_none (tie : TieOrder) (p : Job → Bool) (u : Job → Job)
    (js : List Job) :
    findOldestAndUpdate tie p u js = none ↔ ∀ j ∈ js, p j = false := by
  induction js with
  | nil => simp [findOldestAndUpdate]
  | cons j js ih =>
    cases hrec : findOldestAndUpdate tie p u js with
    | none =>
      have hall := ih.mp hrec
      by_cases hp : p j = true
      · simp [findOldestAndUpdate, hrec, hp]
      · simp only [Bool.not_eq_true] at hp
        simp only [findOldestAndUpdate, hrec, hp]
        simpa [hp] using hall
    | some r =>
      obtain ⟨k, k', js'⟩ := r
      have hex : ¬ ∀ x ∈ js, p x = false := fun h => by
        have := ih.mpr h
        rw [hrec] at this
        exact Option.noConfusion this
      constructor
      · intro h
        simp only [findOldestAndUpdate, hrec] at h
        split at h <;> exact Option.noConfusion h
      · intro h
        exact absurd (fun x hx => h x (List.mem_cons_of_mem _ hx)) hex

/-- What `findOldestAndUpdate` selects and writes, whatever the order among
equal keys: a matching document of least `createdAt`, replaced in place. When
the database keeps insertion order among equal keys, every matching document
inserted before the selected one is strictly younger. -/
theorem findOldestAndUpdate_spec (tie : TieOrder) (p : Job → Bool) (u : Job → Job) :
    ∀ (js : List Job) (k k' : Job) (js' : List Job),
      findOldestAndUpdate tie p u js = some (k, k', js') →
      k' = u k ∧ p k = true ∧
      ∃ i, js[i]? = some k ∧ js' = js.set i (u k) ∧
        (∀ x ∈ js, p x = true → k.createdAt ≤ x.createdAt) ∧
        ((∀ a b, tie a b = true) →
          ∀ i' x, i' < i → js[i']? = some x → p x = true → k.createdAt < x.createdAt) := by
  intro js
  induction js with
  | nil => intro k k' js' h; simp [findOldestAndUpdate] at h
  | cons j js ih =>
    intro k k' js' h
    cases hrec : findOldestAndUpdate tie p u js with
    | none =>
      have hall := (findOldestAndUpdate_eq_none tie p u js).mp hrec
      simp only [findOldestAndUpdate, hrec] at h
      split at h
      · rename_i hp
        simp only [Option.some.injEq, Prod.mk.injEq] at h
        obtain ⟨rfl, rfl, rfl⟩ := h
        refine ⟨rfl, hp, 0, by simp, by simp, ?_, ?_⟩
        · intro x hx hpx
          rcases List.mem_cons.mp hx with rfl | hx
          · exact le_refl _
          · rw [hall x hx] at hpx; exact absurd hpx (by simp)
        · intro _ i' x hi'; exact absurd hi' (Nat.not_lt_zero _)
      · exact Option.noConfusion h
    | some r =>
      obtain ⟨m, m', ms⟩ := r
      obtain ⟨hm', hpm, i, hi, hset, hmin, hbefore⟩ := ih m m' ms hrec
      simp only [findOldestAndUpdate, hrec] at h
      split at h
      · rename_i hc
        simp only [Bool.and_eq_true, Bool.or_eq_true, decide_eq_true_eq] at hc
        simp only [Option.some.injEq, Prod.mk.injEq] at h
        have hle : j.createdAt ≤ m.createdAt := by
          rcases hc.2 with hlt | ⟨heq, _⟩
          · exact le_of_lt hlt
          · exact le_of_eq heq
        obtain ⟨rfl, rfl, rfl⟩ := h
        refine ⟨rfl, hc.1, 0, by simp, by simp, ?_, ?_⟩
        · intro x hx hpx
          rcases List.mem_cons.mp hx with rfl | hx
          · exact le_refl _
          · exact le_trans hle (hmin x hx hpx)
        · intro _ i' x hi'; exact absurd hi' (Nat.not_lt_zero _)
      · rename_i hc
        simp only [Bool.and_eq_true, Bool.or_eq_true, decide_eq_true_eq, not_and, not_or]
          at hc
        simp only [Option.some.injEq, Prod.mk.injEq] at h
        have hle : p j = true → m.createdAt ≤ j.createdAt := fun hpj => not_lt.mp (hc hpj).1
        have hlt : p j = true → (∀ a b, tie a b = true) → m.createdAt < j.createdAt :=
          fun hpj hall => lt_of_le_of_ne (hle hpj) (fun he => by
            have h2 := (hc hpj).2
            simp [he, hall j m] at h2)
        obtain ⟨rfl, rfl, rfl⟩ := h
        refine ⟨hm', hpm, i + 1, by simpa using hi, by simp [hset], ?_, ?_⟩
        · intro x hx hpx
          rcases List.mem_cons.mp hx with rfl | hx
          · exact hle hpx
          · exact hmin x hx hpx
        · intro hall i' x hi' hx hpx
          cases i' with
          | zero =>
            simp only [List.getElem?_cons_zero, Option.some.injEq] at hx
            subst hx
            exact hlt hpx hall
          | succ n =>
            simp only [List.getElem?_cons_succ] at hx
            exact hbefore hall n x (Nat.lt_of_succ_lt_succ hi') hx hpx

/-! ## Claim protocol -/

theorem claimFilter_iff (types : List String) (j : Job) :
    claimFilter (types.map JVal.str) j = true ↔
      j.status = some "queued" ∧ j.type ∈ types := by
  simp only [claimFilter, Bool.and_eq_true, beq_iff_eq, List.any_eq_true, List.mem_map]
  constructor
  · rintro ⟨h1, t, ⟨a, ha, rfl⟩, h2⟩
    simp only [JVal.eqStr, beq_iff_eq] at h2
    exact ⟨h1, h2 ▸ ha⟩
  · rintro ⟨h1, h2⟩
    exact ⟨h1, JVal.str j.type, ⟨j.type, h2, rfl⟩, by simp [JVal.eqStr]⟩

/-- A claim whose body passes the three validations is the atomic
select-and-update on the job collection. -/
theorem claimJob_of_valid (s : Store) (types : List String) (workerId : String) (now : Date)
    (tie : TieOrder)
    (htypes : types ≠ [])
    (hrecognized : ∀ t ∈ types, t = "parse_resume" ∨ t = "generate_questions")
    (hworker : workerId ≠ "") :
    claimJob s ⟨JVal.arr (types.map JVal.str), JVal.str workerId⟩ now tie =
      match findOldestAndUpdate tie (claimFilter (types.map JVal.str))
          (claimUpdate workerId now) s.jobs with
      | none => (Resp.empty 204, s)
      | some (_, claimed, jobs) => (Resp.json 200 claimed, { s with jobs := jobs }) := by
  have hlen : ((types.map JVal.str).length == 0) = false := by
    cases types with
    | nil => exact absurd rfl htypes
    | cons a l => simp
  have hfilter : (types.map JVal.str).filter
      (fun t => !t.eqStr "parse_resume" && !t.eqStr "generate_questions") = [] := by
    rw [List.filter_eq_nil_iff]
    intro t ht
    obtain ⟨a, ha, rfl⟩ := List.mem_map.mp ht
    rcases hrecognized a ha with rfl | rfl <;> simp [JVal.eqStr]
  have hw : (workerId == "") = false := by simpa using hworker
  simp only [claimJob, hlen, hfilter, hw]
  simp

/-- C1 (amended). For every store, every non-empty list of recognized job
types and every non-empty worker id, and whatever order the database applies
among jobs of equal `createdAt`: `claimJob` answers with a job exactly when
some job is queued with a type in the list; the job it answers with was
queued with such a type and no eligible job has a strictly earlier
`createdAt`; with no eligible job the answer is the empty 204. -/
theorem claimJob_returns_oldest_eligible (s : Store) (types : List String)
    (workerId : String) (now : Date) (tie : TieOrder)
    (htypes : types ≠ [])
    (hrecognized : ∀ t ∈ types, t = "parse_resume" ∨ t = "generate_questions")
    (hworker : workerId ≠ "") :
    ((∃ job, (claimJob s ⟨JVal.arr (types.map JVal.str), JVal.str workerId⟩ now tie).1
          = Resp.json 200 job) ↔
        ∃ j ∈ s.jobs, j.status = some "queued" ∧ j.type ∈ types) ∧
    (∀ job, (claimJob s ⟨JVal.arr (types.map JVal.str), JVal.str workerId⟩ now tie).1
          = Resp.json 200 job →
        ∃ (i : Nat) (k : Job), s.jobs[i]? = some k ∧ k._id = job._id ∧
          job = claimUpdate workerId now k ∧
          k.status = some "queued" ∧ k.type ∈ types ∧
          (∀ x ∈ s.jobs, x.status = some "queued" ∧ x.type ∈ types →
            ¬ x.createdAt < k.createdAt)) ∧
    ((¬ ∃ j ∈ s.jobs, j.status = some "queued" ∧ j.type ∈ types) →
        (claimJob s ⟨JVal.arr (types.map JVal.str), JVal.str workerId⟩ now tie).1
          = Resp.empty 204) := by
  rw [claimJob_of_valid s types workerId now tie htypes hrecognized hworker]
  cases hsel : findOldestAndUpdate tie (claimFilter (types.map JVal.str))
      (claimUpdate workerId now) s.jobs with
  | none =>
    have hall := (findOldestAndUpdate_eq_none _ _ _ _).mp hsel
    have hno : ¬ ∃ j ∈ s.jobs, j.status = some "queued" ∧ j.type ∈ types := by
      rintro ⟨j, hj, he⟩
      have := (claimFilter_iff types j).mpr he
      rw [hall j hj] at this
      exact absurd this (by simp)
    refine ⟨⟨?_, fun h => absurd h hno⟩, ?_, fun _ => rfl⟩
    · rintro ⟨job, hjob⟩
      simp at hjob
    · intro job hjob
      simp at hjob
  | some r =>
    obtain ⟨k, k', js'⟩ := r
    obtain ⟨hk', hpk, i, hi, _, hmin, _⟩ :=
      findOldestAndUpdate_spec _ _ _ _ _ _ _ hsel
    have hek := (claimFilter_iff types k).mp hpk
    have hmem : k ∈ s.jobs := List.getElem?_mem hi
    refine ⟨⟨fun _ => ⟨k, hmem, hek⟩, fun _ => ⟨k', rfl⟩⟩, ?_, ?_⟩
    · intro job hjob
      simp only [Resp.json.injEq, true_and] at hjob
      subst hjob
      refine ⟨i, k, hi, ?_, hk', hek.1, hek.2, ?_⟩
      · rw [hk']; rfl
      · intro x hx he
        exact not_lt.mpr (hmin x hx ((claimFilter_iff types x).mpr he))
    · intro hno
      exact absurd ⟨k, hmem, hek⟩ hno

/-- Witness of C1 (amended) on `queueStore`: worker `w1` asking for
`parse_resume` jobs is answered with a job, as a queued `parse_resume` job
exists. -/
theorem claimJob_returns_oldest_eligible_witness :
    (["parse_resume"] ≠ ([] : List String)) ∧ ("w1" ≠ "") ∧
    ((∃ job, (claimJob queueStore
          ⟨JVal.arr (["parse_resume"].map JVal.str), JVal.str "w1"⟩ 30 latestFirst).1
          = Resp.json 200 job) ↔
        ∃ j ∈ queueStore.jobs, j.status = some "queued" ∧ j.type ∈ ["parse_resume"]) :=
  ⟨by decide, by decide,
    (claimJob_returns_oldest_eligible queueStore ["parse_resume"] "w1" 30 latestFirst
      (by decide) (by simp) (by decide)).1⟩

/-- C1 as stated fails on ties. In `tiedStore` jobs 0 and 1 are queued
`parse_resume` jobs of the same `createdAt` and job 0 was created first. The
sort key `createdAt` does not tell them apart: the database that returns
equal keys in insertion order hands out job 0, the one that returns them
latest first hands out job 1, and in that case the tie is not broken by
creation order. -/
theorem claimJob_tie_not_by_creation_order :
    tiedStore.jobs = [mkJob 0 "parse_resume" "queued" 0 10,
      mkJob 1 "parse_resume" "queued" 0 10] ∧
    (mkJob 0 "parse_resume" "queued" 0 10).createdAt
      = (mkJob 1 "parse_resume" "queued" 0 10).createdAt ∧
    (claimJob tiedStore (parseClaim "w1") 30 insertionOrder).1
      = Resp.json 200 (claimUpdate "w1" 30 (mkJob 0 "parse_resume" "queued" 0 10)) ∧
    (claimJob tiedStore (parseClaim "w1") 30 latestFirst).1
      = Resp.json 200 (claimUpdate "w1" 30 (mkJob 1 "parse_resume" "queued" 0 10)) ∧
    (claimUpdate "w1" 30 (mkJob 1 "parse_resume" "queued" 0 10))._id ≠
      (mkJob 0 "parse_resume" "queued" 0 10)._id := by
  decide

/-- Every claim either leaves the store alone and answers with no job, or is
the select-and-update for a list of types and a non-empty worker id. -/
theorem claimJob_cases (s : Store) (body : ClaimBody) (now : Date) (tie : TieOrder) :
    ((claimJob s body now tie).2 = s ∧ ∀ job, (claimJob s body now tie).1 ≠ Resp.json 200 job) ∨
    ∃ (types : List JVal) (workerId : String) (k k' : Job) (js' : List Job),
      body.types = JVal.arr types ∧ body.workerId = JVal.str workerId ∧ workerId ≠ "" ∧
      findOldestAndUpdate tie (claimFilter types) (claimUpdate workerId now) s.jobs
        = some (k, k', js') ∧
      claimJob s body now tie = (Resp.json 200 k', { s with jobs := js' }) := by
  cases htypes : body.types with
  | arr types =>
    by_cases hlen : (types.length == 0) = true
    · left; simp [claimJob, htypes, hlen]
    · by_cases hinv : (types.filter
          (fun t => !t.eqStr "parse_resume" && !t.eqStr "generate_questions")).length > 0
      · left; simp only [claimJob, htypes, hlen, hinv]; simp
      · cases hworker : body.workerId with
        | str workerId =>
          by_cases hw : (workerId == "") = true
          · left; simp only [claimJob, htypes, hlen, hinv, hworker, hw]; simp
          · cases hsel : findOldestAndUpdate tie (claimFilter types)
                (claimUpdate workerId now) s.jobs with
            | none =>
              left; simp only [claimJob, htypes, hlen, hinv, hworker, hw, hsel]; simp
            | some r =>
              obtain ⟨k, k', js'⟩ := r
              right
              refine ⟨types, workerId, k, k', js', rfl, rfl, by simpa using hw, hsel, ?_⟩
              simp only [claimJob, htypes, hlen, hinv, hworker, hw, hsel]
              simp
        | undefined => left; simp only [claimJob, htypes, hlen, hinv, hworker]; simp
        | null => left; simp only [claimJob, htypes, hlen, hinv, hworker]; simp
        | bool b => left; simp only [claimJob, htypes, hlen, hinv, hworker]; simp
        | num n => left; simp only [claimJob, htypes, hlen, hinv, hworker]; simp
        | arr l => left; simp only [claimJob, htypes, hlen, hinv, hworker]; simp
        | obj l => left; simp only [claimJob, htypes, hlen, hinv, hworker]; simp
  | undefined => left; simp [claimJob, htypes]
  | null => left; simp [claimJob, htypes]
  | bool b => left; simp [claimJob, htypes]
  | num n => left; simp [claimJob, htypes]
  | str w => left; simp [claimJob, htypes]
  | obj l => left; simp [claimJob, htypes]

/-- C3. A claim answered with a job changes the store in that one job only:
the job returned stands where the selected job stood, with status
`in_progress`, `lockedBy` the worker id, `lockedAt` the current time and
`attempts` one more than before, and with the identity, `type`, `resumeId`,
`profileId`, `questionSetId`, `createdAt`, `lastError` (and `completedAt`) of
the selected job; the same update stamps `startedAt` and `updatedAt` with the
current time. A claim answered with anything else leaves the store as it
was. -/
theorem claimJob_frame (s : Store) (body : ClaimBody) (now : Date) (tie : TieOrder) :
    (∀ job, (claimJob s body now tie).1 = Resp.json 200 job →
      ∃ (i : Nat) (k : Job) (workerId : String),
        body.workerId = JVal.str workerId ∧ s.jobs[i]? = some k ∧
        (claimJob s body now tie).2 = { s with jobs := s.jobs.set i job } ∧
        job.status = some "in_progress" ∧ job.lockedBy = some workerId ∧
        job.lockedAt = some now ∧ job.attempts = k.attempts + 1 ∧
        job._id = k._id ∧ job.type = k.type ∧ job.resumeId = k.resumeId ∧
        job.profileId = k.profileId ∧ job.questionSetId = k.questionSetId ∧
        job.createdAt = k.createdAt ∧ job.lastError = k.lastError ∧
        job.completedAt = k.completedAt ∧
        job.startedAt = some now ∧ job.updatedAt = now) ∧
    ((∀ job, (claimJob s body now tie).1 ≠ Resp.json 200 job) → (claimJob s body now tie).2 = s) := by
  rcases claimJob_cases s body now tie with ⟨hsame, hno⟩ | ⟨types, w, k, k', js', _, hw, _, hsel, heq⟩
  · exact ⟨fun job h => absurd h (hno job), fun _ => hsame⟩
  · obtain ⟨hk', _, i, hi, hset, _, _⟩ := findOldestAndUpdate_spec _ _ _ _ _ _ _ hsel
    constructor
    · intro job hjob
      rw [heq] at hjob
      simp only [Resp.json.injEq, true_and] at hjob
      subst hjob
      subst hk'
      refine ⟨i, k, w, hw, hi, ?_, rfl, rfl, rfl, rfl, rfl, rfl, rfl, rfl, rfl, rfl, rfl, rfl,
        rfl, rfl⟩
      rw [heq, hset]
    · intro hno
      rw [heq] at hno
      exact absurd rfl (hno k')

/-- Witness of C3 on `queueStore`: the claim of worker `w1` is answered with
job 1, which stood second in the collection and had `attempts = 0`. -/
theorem claimJob_frame_witness :
    (claimJob queueStore (parseClaim "w1") 30 insertionOrder).1
        = Resp.json 200 (claimUpdate "w1" 30 (mkJob 1 "parse_resume" "queued" 0 10)) ∧
    ∃ (i : Nat) (k : Job) (workerId : String),
      (parseClaim "w1").workerId = JVal.str workerId ∧ queueStore.jobs[i]? = some k ∧
      (claimJob queueStore (parseClaim "w1") 30 insertionOrder).2 =
        { queueStore with
          jobs := queueStore.jobs.set i (claimUpdate "w1" 30 (mkJob 1 "parse_resume" "queued" 0 10)) } ∧
      (claimUpdate "w1" 30 (mkJob 1 "parse_resume" "queued" 0 10)).attempts = k.attempts + 1 :=
  ⟨by decide,
    match (claimJob_frame queueStore (parseClaim "w1") 30 insertionOrder).1
        (claimUpdate "w1" 30 (mkJob 1 "parse_resume" "queued" 0 10)) (by decide) with
    | ⟨i, k, w, h1, h2, h3, _, _, _, h4, _⟩ => ⟨i, k, w, h1, h2, h3, h4⟩⟩

/-! ## Effects of the question pipeline on the collections -/

theorem cascadeResumeStatus_frame (s : Store) (resumeId : Option Id) (status : String)
    (now : Date) :
    (cascadeResumeStatus s resumeId status now).jobs = s.jobs ∧
    (cascadeResumeStatus s resumeId status now).profiles = s.profiles ∧
    (cascadeResumeStatus s resumeId status now).questionSets = s.questionSets ∧
    (cascadeResumeStatus s resumeId status now).nextId = s.nextId := by
  unfold cascadeResumeStatus
  split
  · simp
  · split <;> simp

theorem findOrCreateQuestionSet_frame (s : Store) (profileId : Id) (now : Date) :
    (findOrCreateQuestionSet s profileId now).2.jobs = s.jobs ∧
    (findOrCreateQuestionSet s profileId now).2.profiles = s.profiles ∧
    (findOrCreateQuestionSet s profileId now).2.resumes = s.resumes ∧
    s.nextId ≤ (findOrCreateQuestionSet s profileId now).2.nextId := by
  unfold findOrCreateQuestionSet
  split <;> simp

theorem upsertQuestionSet_frame (s : Store) (profileId : Id) (questions : List Question)
    (status promptVersion : String) (now : Date) :
    (upsertQuestionSet s profileId questions status promptVersion now).2.jobs = s.jobs ∧
    (upsertQuestionSet s profileId questions status promptVersion now).2.profiles
      = s.profiles ∧
    (upsertQuestionSet s profileId questions status promptVersion now).2.resumes
      = s.resumes ∧
    s.nextId ≤ (upsertQuestionSet s profileId questions status promptVersion now).2.nextId := by
  unfold upsertQuestionSet
  split <;> simp

theorem requestQuestions_notFound (s : Store) (profileId : Id) (now : Date)
    (h : findOne (fun p => p._id == profileId) s.profiles = none) :
    requestQuestions s profileId now = (Resp.error 404 "Profile not found", s) := by
  simp only [requestQuestions, h]

theorem requestQuestions_notValidated (s : Store) (profileId : Id) (now : Date)
    (profile : UserProfile)
    (h : findOne (fun p => p._id == profileId) s.profiles = some profile)
    (hstatus : profile.status ≠ "validated") :
    requestQuestions s profileId now =
      (Resp.error 400 "Profile must be validated before generating questions", s) := by
  simp only [requestQuestions, h]
  simp [hstatus]

theorem requestQuestions_ready (s : Store) (profileId : Id) (now : Date)
    (profile : UserProfile)
    (h : findOne (fun p => p._id == profileId) s.profiles = some profile)
    (hstatus : profile.status = "validated")
    (hready : (findOrCreateQuestionSet s profileId now).1.status = "ready") :
    requestQuestions s profileId now =
      (Resp.json 200
        { message := "Questions already available"
          questionSetId := (findOrCreateQuestionSet s profileId now).1._id
          jobId := none
          status := (findOrCreateQuestionSet s profileId now).1.status },
        (findOrCreateQuestionSet s profileId now).2) := by
  simp only [requestQuestions, h]
  simp [hstatus, hready]

theorem requestQuestions_inFlight (s : Store) (profileId : Id) (now : Date)
    (profile : UserProfile) (existingJob : Job)
    (h : findOne (fun p => p._id == profileId) s.profiles = some profile)
    (hstatus : profile.status = "validated")
    (hready : (findOrCreateQuestionSet s profileId now).1.status ≠ "ready")
    (hjob : findOne (inFlightFilter profileId) s.jobs = some existingJob) :
    requestQuestions s profileId now =
      (Resp.json 202
        { message := "Question generation already queued"
          questionSetId := (findOrCreateQuestionSet s profileId now).1._id
          jobId := some existingJob._id
          status := (findOrCreateQuestionSet s profileId now).1.status },
        (findOrCreateQuestionSet s profileId now).2) := by
  simp only [requestQuestions, h]
  simp [hstatus, hready, (findOrCreateQuestionSet_frame s profileId now).1, hjob]

theorem requestQuestions_created (s : Store) (profileId : Id) (now : Date)
    (profile : UserProfile)
    (h : findOne (fun p => p._id == profileId) s.profiles = some profile)
    (hstatus : profile.status = "validated")
    (hready : (findOrCreateQuestionSet s profileId now).1.status ≠ "ready")
    (hjob : findOne (inFlightFilter profileId) s.jobs = none) :
    requestQuestions s profileId now =
      (Resp.json 202
        { message := "Question generation queued"
          questionSetId := (findOrCreateQuestionSet s profileId now).1._id
          jobId := some (findOrCreateQuestionSet s profileId now).2.nextId
          status := (findOrCreateQuestionSet s profileId now).1.status },
        cascadeResumeStatus
          { (findOrCreateQuestionSet s profileId now).2 with
            jobs := s.jobs ++
              [newGenerateJob (findOrCreateQuestionSet s profileId now).2.nextId profileId
                (findOrCreateQuestionSet s profileId now).1._id now]
            nextId := (findOrCreateQuestionSet s profileId now).2.nextId + 1 }
          profile.resumeId "questions_pending" now) := by
  simp only [requestQuestions, h]
  simp [hstatus, hready, (findOrCreateQuestionSet_frame s profileId now).1, hjob]

/-- C7. When the profile exists and its status is not `validated`,
`requestQuestions` answers with the 400 precondition error and the store
afterwards, the job, question-set and resume collections included, is the
store before. -/
theorem requestQuestions_requires_validated (s : Store) (profileId : Id) (now : Date)
    (profile : UserProfile)
    (hprofile : findOne (fun p => p._id == profileId) s.profiles = some profile)
    (hstatus : profile.status ≠ "validated") :
    (requestQuestions s profileId now).1 =
        Resp.error 400 "Profile must be validated before generating questions" ∧
    (requestQuestions s profileId now).2 = s ∧
    (requestQuestions s profileId now).2.jobs = s.jobs ∧
    (requestQuestions s profileId now).2.questionSets = s.questionSets ∧
    (requestQuestions s profileId now).2.resumes = s.resumes := by
  rw [requestQuestions_notValidated s profileId now profile hprofile hstatus]
  exact ⟨rfl, rfl, rfl, rfl, rfl⟩

/-- Witness of C7: a request for the `draft` profile of `profileStore` is
refused and the store stays as it was. -/
theorem requestQuestions_requires_validated_witness :
    findOne (fun p => p._id == 1) (profileStore "draft").profiles
        = some (mkProfile 1 (some 0) "draft") ∧
    (mkProfile 1 (some 0) "draft").status ≠ "validated" ∧
    (requestQuestions (profileStore "draft") 1 50).1 =
        Resp.error 400 "Profile must be validated before generating questions" ∧
    (requestQuestions (profileStore "draft") 1 50).2 = profileStore "draft" :=
  ⟨by decide, by decide,
    (requestQuestions_requires_validated (profileStore "draft") 1 50
      (mkProfile 1 (some 0) "draft") (by decide) (by decide)).1,
    (requestQuestions_requires_validated (profileStore "draft") 1 50
      (mkProfile 1 (some 0) "draft") (by decide) (by decide)).2.1⟩

theorem findOrCreateQuestionSet_of_found (s : Store) (profileId : Id) (now : Date)
    (q : QuestionSet)
    (h : findOne (fun q => q.profileId == profileId) s.questionSets = some q) :
    findOrCreateQuestionSet s profileId now = (q, s) := by
  simp only [findOrCreateQuestionSet, h]

/-- After `findOrCreateQuestionSet` the profile's question set is found by
`findOne`. -/
theorem findOne_after_findOrCreate (s : Store) (profileId : Id) (now : Date) :
    findOne (fun q => q.profileId == profileId)
        (findOrCreateQuestionSet s profileId now).2.questionSets
      = some (findOrCreateQuestionSet s profileId now).1 := by
  cases h : findOne (fun q => q.profileId == profileId) s.questionSets with
  | some q => rw [findOrCreateQuestionSet_of_found s profileId now q h]; exact h
  | none =>
    simp only [findOrCreateQuestionSet, h]
    simp only [findOne] at h ⊢
    rw [List.find?_append, h]
    simp

/-- The question set `findOrCreateQuestionSet` yields is not `ready` when the
profile has no `ready` question set. -/
theorem findOrCreateQuestionSet_not_ready (s : Store) (profileId : Id) (now : Date)
    (hnoReady : ∀ q ∈ s.questionSets, q.profileId = profileId → q.status ≠ "ready") :
    (findOrCreateQuestionSet s profileId now).1.status ≠ "ready" := by
  cases h : findOne (fun q => q.profileId == profileId) s.questionSets with
  | some q =>
    rw [findOrCreateQuestionSet_of_found s profileId now q h]
    simp only [findOne] at h
    have hp := List.find?_some h
    exact hnoReady q (List.mem_of_find?_eq_some h) (by simpa using hp)
  | none =>
    simp only [findOrCreateQuestionSet, h]
    decide

/-- C8. For a validated profile with no `ready` question set and no queued
or in-progress `generate_questions` job, two `requestQuestions` calls served
one after the other create exactly one job: the first appends one queued
`generate_questions` job for the profile and answers "queued" with its id,
the second leaves the store as the first left it and answers "already
queued" with the id of that same job. -/
theorem requestQuestions_twice_creates_one_job (s : Store) (profileId : Id)
    (now1 now2 : Date) (profile : UserProfile)
    (hprofile : findOne (fun p => p._id == profileId) s.profiles = some profile)
    (hvalidated : profile.status = "validated")
    (hnoReady : ∀ q ∈ s.questionSets, q.profileId = profileId → q.status ≠ "ready")
    (hnoJob : ∀ j ∈ s.jobs, j.type = "generate_questions" → j.profileId = some profileId →
      j.status ≠ some "queued" ∧ j.status ≠ some "in_progress") :
    ∃ job : Job,
      (requestQuestions s profileId now1).2.jobs = s.jobs ++ [job] ∧
      job.type = "generate_questions" ∧ job.status = some "queued" ∧
      job.profileId = some profileId ∧ job.attempts = 0 ∧
      (∃ r, (requestQuestions s profileId now1).1 = Resp.json 202 r ∧
        r.message = "Question generation queued" ∧ r.jobId = some job._id) ∧
      (requestQuestions (requestQuestions s profileId now1).2 profileId now2).2
        = (requestQuestions s profileId now1).2 ∧
      (∃ r, (requestQuestions (requestQuestions s profileId now1).2 profileId now2).1
          = Resp.json 202 r ∧
        r.message = "Question generation already queued" ∧ r.jobId = some job._id) := by
  have hnr1 := findOrCreateQuestionSet_not_ready s profileId now1 hnoReady
  have hj1 : findOne (inFlightFilter profileId) s.jobs = none := by
    simp only [findOne, List.find?_eq_none]
    intro j hj hf
    simp only [inFlightFilter, Bool.and_eq_true, Bool.or_eq_true, beq_iff_eq] at hf
    obtain ⟨⟨ht, hp⟩, hs⟩ := hf
    have := hnoJob j hj ht hp
    rcases hs with hs | hs
    · exact this.1 hs
    · exact this.2 hs
  have h1 := requestQuestions_created s profileId now1 profile hprofile hvalidated hnr1 hj1
  have hframe := findOrCreateQuestionSet_frame s profileId now1
  have hfound := findOne_after_findOrCreate s profileId now1
  generalize findOrCreateQuestionSet s profileId now1 = fc at h1 hnr1 hframe hfound
  generalize hs' : (requestQuestions s profileId now1).2 = s' at *
  have hs'eq : s' = cascadeResumeStatus
      { fc.2 with
        jobs := s.jobs ++ [newGenerateJob fc.2.nextId profileId fc.1._id now1]
        nextId := fc.2.nextId + 1 } profile.resumeId "questions_pending" now1 := by
    rw [← hs', h1]
  have hcas := cascadeResumeStatus_frame
      { fc.2 with
        jobs := s.jobs ++ [newGenerateJob fc.2.nextId profileId fc.1._id now1]
        nextId := fc.2.nextId + 1 } profile.resumeId "questions_pending" now1
  rw [← hs'eq] at hcas
  obtain ⟨hjobs', hprofiles', hsets', _⟩ := hcas
  simp only at hjobs' hprofiles' hsets'
  have hfc' : findOrCreateQuestionSet s' profileId now2 = (fc.1, s') :=
    findOrCreateQuestionSet_of_found s' profileId now2 fc.1 (by rw [hsets']; exact hfound)
  have hj2 : findOne (inFlightFilter profileId) s'.jobs
      = some (newGenerateJob fc.2.nextId profileId fc.1._id now1) := by
    simp only [findOne] at hj1 ⊢
    rw [hjobs', List.find?_append, hj1]
    simp [inFlightFilter, newGenerateJob]
  have h2 := requestQuestions_inFlight s' profileId now2 profile
    (newGenerateJob fc.2.nextId profileId fc.1._id now1)
    (by rw [hprofiles', hframe.2.1]; exact hprofile) hvalidated
    (by rw [hfc']; exact hnr1) hj2
  rw [hfc'] at h2
  refine ⟨newGenerateJob fc.2.nextId profileId fc.1._id now1, hjobs', rfl, rfl, rfl, rfl,
    ⟨_, by rw [h1], rfl, rfl⟩, by rw [h2], ⟨_, by rw [h2], rfl, rfl⟩⟩

/-- Witness of C8 on `profileStore "validated"`: the two requests create the
one job with id 3 (the question set created first took id 2). -/
theorem requestQuestions_twice_creates_one_job_witness :
    findOne (fun p => p._id == 1) (profileStore "validated").profiles
        = some (mkProfile 1 (some 0) "validated") ∧
    ∃ job : Job,
      (requestQuestions (profileStore "validated") 1 50).2.jobs
        = (profileStore "validated").jobs ++ [job] ∧
      (requestQuestions (requestQuestions (profileStore "validated") 1 50).2 1 60).2
        = (requestQuestions (profileStore "validated") 1 50).2 :=
  ⟨by decide,
    match requestQuestions_twice_creates_one_job (profileStore "validated") 1 50 60
        (mkProfile 1 (some 0) "validated") (by decide) (by decide) (by decide) (by decide) with
    | ⟨job, h1, _, _, _, _, _, h2, _⟩ => ⟨job, h1, h2⟩⟩

/-! ## Effects of the handlers on the job collection -/

theorem updateFirst_eq_none {α : Type} (p : α → Bool) (u : α → α) (ds : List α) :
    updateFirst p u ds = none ↔ ∀ d ∈ ds, p d = false := by
  induction ds with
  | nil => simp [updateFirst]
  | cons d ds ih =>
    by_cases hp : p d = true
    · simp [updateFirst, hp]
    · simp only [Bool.not_eq_true] at hp
      cases hrec : updateFirst p u ds with
      | none =>
        have := ih.mp hrec
        simp only [updateFirst, hp, hrec]
        simpa [hp] using this
      | some r =>
        have hne : ¬ ∀ x ∈ ds, p x = false := fun h => by
          have := ih.mpr h
          rw [hrec] at this
          exact Option.noConfusion this
        simp only [updateFirst, hp, hrec]
        constructor
        · intro h; simp at h
        · intro h
          exact absurd (fun x hx => h x (List.mem_cons_of_mem _ hx)) hne

/-- What `updateFirst` selects and writes. -/
theorem updateFirst_spec {α : Type} (p : α → Bool) (u : α → α) :
    ∀ (ds : List α) (d' : α) (ds' : List α), updateFirst p u ds = some (d', ds') →
      ∃ (i : Nat) (d : α), ds[i]? = some d ∧ p d = true ∧ d' = u d ∧ ds' = ds.set i (u d) ∧
        ds.find? p = some d := by
  intro ds
  induction ds with
  | nil => intro d' ds' h; simp [updateFirst] at h
  | cons d ds ih =>
    intro d' ds' h
    by_cases hp : p d = true
    · simp only [updateFirst, hp, if_true, Option.some.injEq, Prod.mk.injEq] at h
      obtain ⟨rfl, rfl⟩ := h
      exact ⟨0, d, by simp, hp, rfl, by simp, by simp [hp]⟩
    · simp only [Bool.not_eq_true] at hp
      cases hrec : updateFirst p u ds with
      | none => simp [updateFirst, hp, hrec] at h
      | some r =>
        obtain ⟨e', es'⟩ := r
        simp only [updateFirst, hp, hrec, Option.some.injEq, Prod.mk.injEq] at h
        simp only [Bool.false_eq_true, if_false, Option.some.injEq, Prod.mk.injEq] at h
        obtain ⟨rfl, rfl⟩ := h
        obtain ⟨i, e, hi, hpe, heq, hset, hfind⟩ := ih e' es' hrec
        exact ⟨i + 1, e, by simpa using hi, hpe, heq, by simp [hset], by simp [hp, hfind]⟩

/-- When the update keeps the selecting predicate, the updated document is
the one a later `findOne` with that predicate reads. -/
theorem findOne_updateFirst {α : Type} (p : α → Bool) (u : α → α)
    (hkeep : ∀ d, p (u d) = p d) :
    ∀ (ds : List α) (d' : α) (ds' : List α), updateFirst p u ds = some (d', ds') →
      findOne p ds' = some d' := by
  intro ds
  induction ds with
  | nil => intro d' ds' h; simp [updateFirst] at h
  | cons d ds ih =>
    intro d' ds' h
    by_cases hp : p d = true
    · simp only [updateFirst, hp, if_true, Option.some.injEq, Prod.mk.injEq] at h
      obtain ⟨rfl, rfl⟩ := h
      simp [findOne, hkeep, hp]
    · simp only [Bool.not_eq_true] at hp
      cases hrec : updateFirst p u ds with
      | none => simp [updateFirst, hp, hrec] at h
      | some r =>
        obtain ⟨e', es'⟩ := r
        simp only [updateFirst, hp, hrec, Option.some.injEq, Prod.mk.injEq] at h
        simp only [Bool.false_eq_true, if_false, Option.some.injEq, Prod.mk.injEq] at h
        obtain ⟨rfl, rfl⟩ := h
        have := ih e' es' hrec
        simp only [findOne] at this ⊢
        simp [hp, this]

/-- An `updateJob` either answers with an error and leaves the store alone,
or its body passed both validations and the first job with the id is
rewritten with the `updates` object. -/
theorem updateJob_cases (s : Store) (id : Id) (body : UpdateJobBody) (now : Date) :
    ((updateJob s id body now).2 = s ∧ ∀ job, (updateJob s id body now).1 ≠ Resp.json 200 job) ∨
    ∃ (updated : Job) (jobs : List Job),
      (body.status.truthy && !body.status.inStrings VALID_STATUSES) = false ∧
      (body.attempts.isDefined && !body.attempts.isNumber) = false ∧
      updateFirst (fun j => j._id == id) ((buildJobUpdates body now).apply now) s.jobs
        = some (updated, jobs) ∧
      updateJob s id body now = (Resp.json 200 updated, { s with jobs := jobs }) := by
  by_cases h1 : (body.status.truthy && !body.status.inStrings VALID_STATUSES) = true
  · left; simp [updateJob, h1]
  · by_cases h2 : (body.attempts.isDefined && !body.attempts.isNumber) = true
    · left; simp [updateJob, h1, h2]
    · cases hupd : updateFirst (fun j => j._id == id)
          ((buildJobUpdates body now).apply now) s.jobs with
      | none => left; simp [updateJob, h1, h2, hupd]
      | some r =>
        obtain ⟨updated, jobs⟩ := r
        right
        exact ⟨updated, jobs, by simpa using h1, by simpa using h2, rfl,
          by simp [updateJob, h1, h2, hupd]⟩

/-! ## Lifecycle transitions -/

/-- An accepted `updateJob` on an existing job answers with the rewritten
job, which is the job the id reads afterwards. -/
theorem updateJob_of_accepted (s : Store) (id : Id) (body : UpdateJobBody) (now : Date)
    (job : Job)
    (hjob : findOne (fun j => j._id == id) s.jobs = some job)
    (hstatus : (body.status.truthy && !body.status.inStrings VALID_STATUSES) = false)
    (hattempts : (body.attempts.isDefined && !body.attempts.isNumber) = false) :
    (updateJob s id body now).1 = Resp.json 200 ((buildJobUpdates body now).apply now job) ∧
    findOne (fun j => j._id == id) (updateJob s id body now).2.jobs
      = some ((buildJobUpdates body now).apply now job) := by
  rcases updateJob_cases s id body now with ⟨_, hno⟩ | ⟨updated, jobs, _, _, hupd, heq⟩
  · exfalso
    cases hupd : updateFirst (fun j => j._id == id)
        ((buildJobUpdates body now).apply now) s.jobs with
    | none =>
      have hall := (updateFirst_eq_none _ _ _).mp hupd
      simp only [findOne] at hjob
      have h1 := hall job (List.mem_of_find?_eq_some hjob)
      have h2 := List.find?_some hjob
      rw [h1] at h2
      exact absurd h2 (by simp)
    | some r =>
      exact hno r.1 (by simp [updateJob, hstatus, hattempts, hupd])
  · obtain ⟨i, d, _, _, hd, _, hfind⟩ := updateFirst_spec _ _ _ _ _ hupd
    simp only [findOne] at hjob
    rw [hjob] at hfind
    simp only [Option.some.injEq] at hfind
    subst hfind
    subst hd
    rw [heq]
    exact ⟨rfl, findOne_updateFirst (fun j => j._id == id)
      ((buildJobUpdates body now).apply now) (fun d => rfl) s.jobs _ jobs hupd⟩

/-- C5 (amended). For every existing job, whatever its status and lock
holder, and every `updateJob` body whose status is `completed`, `failed` or
`queued` and whose `attempts`, when present, is a number (whatever `lockedBy`
and `lockedAt` it carries): the call answers 200 with the job as it is read
afterwards, that job has the requested status and null `lockedBy` and
`lockedAt`, and for `failed` with a `lastError` in the body its `lastError`
is that value. -/
theorem updateJob_terminal_clears_lock (s : Store) (id : Id) (body : UpdateJobBody)
    (now : Date) (job : Job) (st : String)
    (hjob : findOne (fun j => j._id == id) s.jobs = some job)
    (hst : st = "completed" ∨ st = "failed" ∨ st = "queued")
    (hstatus : body.status = JVal.str st)
    (hattempts : body.attempts = JVal.undefined ∨ ∃ n, body.attempts = JVal.num n) :
    ∃ job' : Job,
      (updateJob s id body now).1 = Resp.json 200 job' ∧
      findOne (fun j => j._id == id) (updateJob s id body now).2.jobs = some job' ∧
      job'.status = some st ∧ job'.lockedBy = none ∧ job'.lockedAt = none ∧
      (st = "failed" → body.lastError.isDefined = true →
        job'.lastError = body.lastError.stored) := by
  have hs : (body.status.truthy && !body.status.inStrings VALID_STATUSES) = false := by
    rw [hstatus]
    rcases hst with rfl | rfl | rfl <;> decide
  have ha : (body.attempts.isDefined && !body.attempts.isNumber) = false := by
    rcases hattempts with h | ⟨n, h⟩ <;> rw [h] <;> rfl
  obtain ⟨h1, h2⟩ := updateJob_of_accepted s id body now job hjob hs ha
  refine ⟨_, h1, h2, ?_, ?_, ?_, ?_⟩
  · rcases hst with rfl | rfl | rfl <;>
      simp [buildJobUpdates, JobUpdates.apply, hstatus, JVal.eqStr, JVal.isDefined,
        JVal.castString]
  · rcases hst with rfl | rfl | rfl <;>
      simp [buildJobUpdates, JobUpdates.apply, hstatus, JVal.eqStr]
  · rcases hst with rfl | rfl | rfl <;>
      simp [buildJobUpdates, JobUpdates.apply, hstatus, JVal.eqStr]
  · intro hf hdef
    subst hf
    simp [buildJobUpdates, JobUpdates.apply, hstatus, JVal.eqStr, hdef]

/-- Witness of C5: `{ status: "failed", lastError: "timeout" }` on the
in-progress job of `lockedStore` leaves it `failed`, unlocked, with
`lastError = "timeout"`. -/
theorem updateJob_terminal_clears_lock_witness :
    findOne (fun j => j._id == 0) lockedStore.jobs
        = some (claimUpdate "w1" 30 (mkJob 0 "parse_resume" "queued" 0 10)) ∧
    ∃ job' : Job,
      findOne (fun j => j._id == 0)
        (updateJob lockedStore 0
          { statusBody (JVal.str "failed") with lastError := Field.val "timeout" } 40).2.jobs
        = some job' ∧
      job'.status = some "failed" ∧ job'.lockedBy = none ∧ job'.lockedAt = none ∧
      job'.lastError = some "timeout" :=
  ⟨by decide,
    match updateJob_terminal_clears_lock lockedStore 0
        { statusBody (JVal.str "failed") with lastError := Field.val "timeout" } 40
        (claimUpdate "w1" 30 (mkJob 0 "parse_resume" "queued" 0 10)) "failed"
        (by decide) (Or.inr (Or.inl rfl)) rfl (Or.inl rfl) with
    | ⟨job', _, h2, h3, h4, h5, h6⟩ => ⟨job', h2, h3, h4, h5, h6 rfl rfl⟩⟩

/-- C5 as stated fails: the body `{ status: "completed", attempts: "3" }` has
a status among the three, yet on the in-progress job of `lockedStore` the
call is refused with 400 and the job stays `in_progress` and locked by
`w1`. -/
theorem updateJob_terminal_refused_on_attempts :
    (updateJob lockedStore 0
        { statusBody (JVal.str "completed") with attempts := JVal.str "3" } 40).1
      = Resp.error 400 "attempts must be a number" ∧
    findOne (fun j => j._id == 0)
        (updateJob lockedStore 0
          { statusBody (JVal.str "completed") with attempts := JVal.str "3" } 40).2.jobs
      = some (claimUpdate "w1" 30 (mkJob 0 "parse_resume" "queued" 0 10)) ∧
    (claimUpdate "w1" 30 (mkJob 0 "parse_resume" "queued" 0 10)).status = some "in_progress" ∧
    (claimUpdate "w1" 30 (mkJob 0 "parse_resume" "queued" 0 10)).lockedBy = some "w1" := by
  decide

/-- A truthy status outside `VALID_STATUSES` is refused with 400 and the
store is left as it was. -/
theorem updateJob_rejects_unknown_status (s : Store) (id : Id) (body : UpdateJobBody)
    (now : Date) (htruthy : body.status.truthy = true)
    (hunknown : body.status.inStrings VALID_STATUSES = false) :
    updateJob s id body now = (Resp.error 400 "Invalid status value", s) := by
  simp [updateJob, htruthy, hunknown]

/-- An `attempts` that is present and not a number is refused with 400 and
the store is left as it was. -/
theorem updateJob_rejects_non_numeric_attempts (s : Store) (id : Id) (body : UpdateJobBody)
    (now : Date) (hpresent : body.attempts.isDefined = true)
    (hnan : body.attempts.isNumber = false) :
    (updateJob s id body now).1.code = 400 ∧ (updateJob s id body now).2 = s := by
  by_cases h : (body.status.truthy && !body.status.inStrings VALID_STATUSES) = true
  · simp [updateJob, h, Resp.code]
  · simp [updateJob, h, hpresent, hnan, Resp.code]

/-- C6 at its failing input: the body `{ status: "" }` carries a status that
is none of the four, yet `updateJob` on job 0 of `queueStore` answers 200 and
writes the empty string into the job's status. -/
theorem updateJob_stores_empty_status :
    (updateJob queueStore 0 (statusBody (JVal.str "")) 40).1
      = Resp.json 200
          { mkJob 0 "parse_resume" "queued" 0 20 with status := some "", updatedAt := 40 } ∧
    (updateJob queueStore 0 (statusBody (JVal.str "")) 40).2 ≠ queueStore := by
  decide

/-! ## Questions: save, read, normalize -/

/-- After the upsert the profile's question set is the upserted document, and
it holds the question list that was written. -/
theorem upsertQuestionSet_read (s : Store) (profileId : Id) (questions : List Question)
    (status promptVersion : String) (now : Date) :
    findOne (fun q => q.profileId == profileId)
        (upsertQuestionSet s profileId questions status promptVersion now).2.questionSets
      = some (upsertQuestionSet s profileId questions status promptVersion now).1 ∧
    (upsertQuestionSet s profileId questions status promptVersion now).1.questions
      = questions := by
  cases hupd : updateFirst (fun q => q.profileId == profileId)
      (fun q : QuestionSet => { q with
        questions := questions
        status := status
        promptVersion := some promptVersion
        updatedAt := now }) s.questionSets with
  | some r =>
    obtain ⟨updated, sets⟩ := r
    have hread := findOne_updateFirst (fun q : QuestionSet => q.profileId == profileId)
      (fun q : QuestionSet => { q with
        questions := questions
        status := status
        promptVersion := some promptVersion
        updatedAt := now }) (fun d => rfl) s.questionSets updated sets hupd
    obtain ⟨i, d, _, _, hd, _, _⟩ := updateFirst_spec _ _ _ _ _ hupd
    simp only [upsertQuestionSet, hupd]
    exact ⟨hread, by rw [hd]⟩
  | none =>
    have hall := (updateFirst_eq_none _ _ _).mp hupd
    simp only [upsertQuestionSet, hupd, findOne]
    rw [List.find?_append, List.find?_eq_none.mpr (fun x hx => by simp [hall x hx])]
    simp

/-- A `saveQuestions` whose elements all pass the check, with no status in
the body, for an existing profile: the next `getQuestions` answers with the
stored elements, each put through `normalizeQuestion`. -/
theorem getQuestions_after_saveQuestions (s : Store) (profileId : Id)
    (questions : List QuestionInput) (now : Date) (profile : UserProfile)
    (hprofile : findOne (fun p => p._id == profileId) s.profiles = some profile)
    (hvalid : ∀ q ∈ questions, invalidQuestion q = false) :
    ∃ qs : QuestionSet,
      (getQuestions (saveQuestions s profileId (questionsBody questions) now).2 profileId).1
        = Resp.json 200 qs ∧
      qs.questions = (questions.map storeQuestion).map normalizeQuestion := by
  have hfind : questions.find? invalidQuestion = none := by
    rw [List.find?_eq_none]
    intro q hq
    simp [hvalid q hq]
  simp only [saveQuestions, questionsBody, hfind, hprofile, JVal.truthy, Bool.false_and]
  simp only [Bool.false_eq_true, if_false]
  obtain ⟨hread, hqs⟩ := upsertQuestionSet_read s profileId (questions.map storeQuestion)
    "ready" (orDefault none "v1") now
  simp only [getQuestions, (cascadeResumeStatus_frame _ _ _ _).2.2.1, hread]
  exact ⟨_, rfl, by rw [hqs]⟩

/-- The stored form of an accepted element whose `question` is not the empty
string is what `normalizeQuestion` returns for it: on such lists the read
gives back section, question, answer, difficulty and tags as saved. -/
theorem normalizeQuestion_storeQuestion (q : QuestionInput) (section_ question answer : String)
    (hs : q.section_ = JVal.str section_) (hq : q.question = JVal.str question)
    (ha : q.answer = JVal.str answer) (hne : question ≠ "") :
    normalizeQuestion (storeQuestion q) =
      { section_ := some section_
        question := some question
        answer := some answer
        difficulty := q.difficulty
        tags := some q.tags
        category := none
        text := none } := by
  simp [normalizeQuestion, storeQuestion, strTruthy, hs, hq, ha, hne, JVal.castString]

/-- C9 at its failing input: `[{ section: "skills", question: "", answer:
"A" }]` is accepted by `saveQuestions` for the profile of `profileStore`, it
is stored with section `skills`, and the `getQuestions` that follows answers
with section `experience`. -/
theorem saveQuestions_getQuestions_loses_section :
    (saveQuestions (profileStore "validated") 1 (questionsBody [skillsQuestion ""]) 70).1.code
      = 200 ∧
    ((saveQuestions (profileStore "validated") 1
        (questionsBody [skillsQuestion ""]) 70).2.questionSets.map
      (fun qs => qs.questions.map (fun q => q.section_))) = [[some "skills"]] ∧
    ∃ qs : QuestionSet,
      (getQuestions
        (saveQuestions (profileStore "validated") 1 (questionsBody [skillsQuestion ""]) 70).2
        1).1 = Resp.json 200 qs ∧
      qs.questions.map (fun q => q.section_) = [some "experience"] :=
  ⟨by decide, by decide, _, rfl, by decide⟩

/-- C10 (amended). A record without a `question` field is mapped to a record
whose section is its category when that is a non-empty string and
`experience` when the category is absent or empty, whose question is its text
(the empty string when absent), with answer, difficulty and tags carried over
(defaulting to the empty string, the empty string and the empty list) and
without `category`/`text`; a record with a non-empty question is returned as
it is; `getQuestions` answers with the stored set, each record normalized,
and hands the store back unchanged. -/
theorem normalizeQuestion_legacy_and_current (q : Question) (s : Store) (profileId : Id) :
    (q.question = none →
      (∀ c, q.category = some c → c ≠ "" → (normalizeQuestion q).section_ = some c) ∧
      (q.category = none ∨ q.category = some "" →
        (normalizeQuestion q).section_ = some "experience") ∧
      (normalizeQuestion q).question = some (q.text.getD "") ∧
      (normalizeQuestion q).answer = some (q.answer.getD "") ∧
      (normalizeQuestion q).difficulty = some (q.difficulty.getD "") ∧
      (normalizeQuestion q).tags = some (q.tags.getD []) ∧
      (normalizeQuestion q).category = none ∧ (normalizeQuestion q).text = none) ∧
    (∀ t, q.question = some t → t ≠ "" → normalizeQuestion q = q) ∧
    (getQuestions s profileId).2 = s ∧
    (∀ qs, findOne (fun x => x.profileId == profileId) s.questionSets = some qs →
      (getQuestions s profileId).1
        = Resp.json 200 { qs with questions := qs.questions.map normalizeQuestion }) := by
  have hor : ∀ a : Option String, orDefault a "" = a.getD "" := by
    intro a
    cases a with
    | none => rfl
    | some x =>
      by_cases hx : x = ""
      · simp [orDefault, hx]
      · simp [orDefault, hx]
  refine ⟨?_, ?_, ?_, ?_⟩
  · intro hq
    have hn : normalizeQuestion q =
        { section_ := some (orDefault q.category "experience")
          question := some (orDefault q.text "")
          answer := some (orDefault q.answer "")
          difficulty := some (orDefault q.difficulty "")
          tags := some (q.tags.getD [])
          category := none
          text := none } := by
      simp [normalizeQuestion, strTruthy, hq]
    rw [hn]
    refine ⟨?_, ?_, ?_, ?_, ?_, rfl, rfl, rfl⟩
    · intro c hc hne
      simp [orDefault, hc, hne]
    · rintro (hc | hc) <;> simp [orDefault, hc]
    · simp [hor]
    · simp [hor]
    · simp [hor]
  · intro t ht hne
    simp [normalizeQuestion, strTruthy, ht, hne]
  · unfold getQuestions
    split <;> rfl
  · intro qs hqs
    simp only [getQuestions, hqs]

/-- Witness of C10 (amended): the older record `{ category: "skills", text:
"Q1" }` reads as section `skills`, question `Q1`, and the current record
`{ section: "skills", question: "Q1", answer: "A" }` is returned as stored. -/
theorem normalizeQuestion_legacy_and_current_witness :
    (legacyQuestion (some "skills") (some "Q1")).question = none ∧
    (normalizeQuestion (legacyQuestion (some "skills") (some "Q1"))).section_ = some "skills" ∧
    (normalizeQuestion (legacyQuestion (some "skills") (some "Q1"))).question = some "Q1" ∧
    normalizeQuestion (storeQuestion (skillsQuestion "Q1")) = storeQuestion (skillsQuestion "Q1") :=
  ⟨rfl,
    ((normalizeQuestion_legacy_and_current (legacyQuestion (some "skills") (some "Q1"))
      Store.empty 0).1 rfl).1 "skills" rfl (by decide),
    ((normalizeQuestion_legacy_and_current (legacyQuestion (some "skills") (some "Q1"))
      Store.empty 0).1 rfl).2.2.1,
    (normalizeQuestion_legacy_and_current (storeQuestion (skillsQuestion "Q1"))
      Store.empty 0).2.1 "Q1" rfl (by decide)⟩

/-- C10 as stated fails: the older record `{ category: "", text: "Q1" }`
carries a category and no question, and is read with section `experience`,
not with its category. -/
theorem normalizeQuestion_empty_category :
    (legacyQuestion (some "") (some "Q1")).question = none ∧
    (legacyQuestion (some "") (some "Q1")).category = some "" ∧
    (normalizeQuestion (legacyQuestion (some "") (some "Q1"))).section_ = some "experience" ∧
    (normalizeQuestion (legacyQuestion (some "") (some "Q1"))).section_
      ≠ (legacyQuestion (some "") (some "Q1")).category := by
  decide

/-! ## Traces of requests -/

theorem uploadResume_jobs (s : Store) (reqFile : Option UploadedFile) (now : Date) :
    s.nextId ≤ (uploadResume s reqFile now).2.nextId ∧
    ((uploadResume s reqFile now).2.jobs = s.jobs ∨
      ∃ job : Job, (uploadResume s reqFile now).2.jobs = s.jobs ++ [job] ∧
        job.status = some "queued" ∧ job.lockedBy = none ∧ job.lockedAt = none ∧
        s.nextId ≤ job._id) := by
  cases reqFile with
  | none => simp [uploadResume]
  | some file =>
    by_cases h1 : (!SUPPORTED_MIME_TYPES.contains file.mimetype) = true
    · simp only [uploadResume, h1]
      simp
    · by_cases h2 : (jsTrim (extractTextFromFile file) == "" ||
          decide (jsLength (jsTrim (extractTextFromFile file)) < 50)) = true
      · simp only [uploadResume, h1, h2]
        simp
      · simp only [uploadResume, h1, h2]
        refine ⟨by simp, Or.inr ⟨_, rfl, rfl, rfl, rfl, by simp⟩⟩

theorem requestQuestions_jobs (s : Store) (profileId : Id) (now : Date) :
    s.nextId ≤ (requestQuestions s profileId now).2.nextId ∧
    ((requestQuestions s profileId now).2.jobs = s.jobs ∨
      ∃ job : Job, (requestQuestions s profileId now).2.jobs = s.jobs ++ [job] ∧
        job.status = some "queued" ∧ job.lockedBy = none ∧ job.lockedAt = none ∧
        s.nextId ≤ job._id) := by
  have hfc := findOrCreateQuestionSet_frame s profileId now
  cases hprofile : findOne (fun p => p._id == profileId) s.profiles with
  | none =>
    rw [requestQuestions_notFound s profileId now hprofile]
    exact ⟨le_refl _, Or.inl rfl⟩
  | some profile =>
    by_cases hstatus : profile.status = "validated"
    · by_cases hready : (findOrCreateQuestionSet s profileId now).1.status = "ready"
      · rw [requestQuestions_ready s profileId now profile hprofile hstatus hready]
        exact ⟨hfc.2.2.2, Or.inl hfc.1⟩
      · cases hjob : findOne (inFlightFilter profileId) s.jobs with
        | some existingJob =>
          rw [requestQuestions_inFlight s profileId now profile existingJob hprofile hstatus
            hready hjob]
          exact ⟨hfc.2.2.2, Or.inl hfc.1⟩
        | none =>
          rw [requestQuestions_created s profileId now profile hprofile hstatus hready hjob]
          obtain ⟨hj, _, _, hn⟩ := cascadeResumeStatus_frame
            { (findOrCreateQuestionSet s profileId now).2 with
              jobs := s.jobs ++
                [newGenerateJob (findOrCreateQuestionSet s profileId now).2.nextId profileId
                  (findOrCreateQuestionSet s profileId now).1._id now]
              nextId := (findOrCreateQuestionSet s profileId now).2.nextId + 1 }
            profile.resumeId "questions_pending" now
          refine ⟨?_, Or.inr ⟨_, hj, rfl, rfl, rfl, hfc.2.2.2⟩⟩
          simp only [hn]
          exact Nat.le_succ_of_le hfc.2.2.2
    · rw [requestQuestions_notValidated s profileId now profile hprofile hstatus]
      exact ⟨le_refl _, Or.inl rfl⟩

theorem saveQuestions_jobs (s : Store) (profileId : Id) (body : SaveQuestionsBody)
    (now : Date) :
    s.nextId ≤ (saveQuestions s profileId body now).2.nextId ∧
    (saveQuestions s profileId body now).2.jobs = s.jobs := by
  unfold saveQuestions
  split
  · simp
  · split
    · simp
    · split
      · simp
      · split
        · simp
        · simp only [(cascadeResumeStatus_frame _ _ _ _).1, (cascadeResumeStatus_frame _ _ _ _).2.2.2]
          exact ⟨(upsertQuestionSet_frame _ _ _ _ _ _).2.2.2, (upsertQuestionSet_frame _ _ _ _ _ _).1⟩

/-- What one request does to the job collection: nothing, the insertion of a
queued unlocked job with a fresh id, the claim of a queued job, or the
rewrite of a job by an accepted `updateJob`. The id supply never goes back. -/
theorem step_jobs (s : Store) (op : Op) :
    s.nextId ≤ (step s op).nextId ∧
    ((step s op).jobs = s.jobs ∨
      (∃ job : Job, (step s op).jobs = s.jobs ++ [job] ∧ job.status = some "queued" ∧
        job.lockedBy = none ∧ job.lockedAt = none ∧ s.nextId ≤ job._id) ∨
      (∃ (i : Nat) (k : Job) (workerId : String) (now : Date),
        s.jobs[i]? = some k ∧ k.status = some "queued" ∧
        (step s op).jobs = s.jobs.set i (claimUpdate workerId now k)) ∨
      (∃ (i : Nat) (k : Job) (id : Id) (body : UpdateJobBody) (now : Date),
        op = Op.updateJob id body now ∧
        (body.status.truthy && !body.status.inStrings VALID_STATUSES) = false ∧
        (body.attempts.isDefined && !body.attempts.isNumber) = false ∧
        s.jobs[i]? = some k ∧ k._id = id ∧
        (step s op).jobs = s.jobs.set i ((buildJobUpdates body now).apply now k))) := by
  cases op with
  | uploadResume reqFile now =>
    obtain ⟨hn, h | h⟩ := uploadResume_jobs s reqFile now
    · exact ⟨hn, Or.inl h⟩
    · exact ⟨hn, Or.inr (Or.inl h)⟩
  | requestQuestions profileId now =>
    obtain ⟨hn, h | h⟩ := requestQuestions_jobs s profileId now
    · exact ⟨hn, Or.inl h⟩
    · exact ⟨hn, Or.inr (Or.inl h)⟩
  | claimJob body now tie =>
    rcases claimJob_cases s body now tie with ⟨hsame, _⟩ | ⟨types, w, k, k', js', _, _, _, hsel, heq⟩
    · refine ⟨?_, Or.inl ?_⟩ <;> simp only [step, hsame, le_refl]
    · obtain ⟨_, hpk, i, hi, hset, _, _⟩ := findOldestAndUpdate_spec _ _ _ _ _ _ _ hsel
      simp only [step, heq]
      refine ⟨le_refl _, Or.inr (Or.inr (Or.inl ⟨i, k, w, now, hi, ?_, hset⟩))⟩
      simp only [claimFilter, Bool.and_eq_true, beq_iff_eq] at hpk
      exact hpk.1
  | updateJob id body now =>
    rcases updateJob_cases s id body now with
      ⟨hsame, _⟩ | ⟨updated, jobs, hacc, hatt, hupd, heq⟩
    · refine ⟨?_, Or.inl ?_⟩ <;> simp only [step, hsame, le_refl]
    · obtain ⟨i, d, hi, hpd, _, hset, _⟩ := updateFirst_spec _ _ _ _ _ hupd
      simp only [step, heq]
      exact ⟨le_refl _, Or.inr (Or.inr (Or.inr
        ⟨i, d, id, body, now, rfl, hacc, hatt, hi, by simpa using hpd, hset⟩))⟩
  | saveQuestions profileId body now =>
    obtain ⟨hn, h⟩ := saveQuestions_jobs s profileId body now
    exact ⟨hn, Or.inl h⟩
  | nonJobWrite profiles resumes questionSets drawn =>
    exact ⟨Nat.le_add_right _ _, Or.inl rfl⟩

/-- The status an accepted `updateJob` body writes is `queued` only when the
body's status is the string `queued`. -/
theorem buildJobUpdates_status_not_queued (body : UpdateJobBody) (now : Date)
    (hacc : (body.status.truthy && !body.status.inStrings VALID_STATUSES) = false)
    (hnot : body.status.eqStr "queued" = false) :
    (buildJobUpdates body now).status ≠ some (some "queued") := by
  have hst : (buildJobUpdates body now).status
      = if body.status.isDefined then some body.status.castString else none := by
    by_cases h1 : body.status.eqStr "completed" = true <;>
      by_cases h2 : (body.status.eqStr "failed" || body.status.eqStr "queued") = true <;>
      simp only [buildJobUpdates, h1, h2] <;> rfl
  rw [hst]
  cases hb : body.status with
  | undefined => simp [JVal.isDefined]
  | null => simp [JVal.isDefined, JVal.castString]
  | bool b =>
    rw [hb] at hacc
    cases b with
    | true => simp [JVal.truthy, JVal.inStrings, JVal.eqStr, VALID_STATUSES] at hacc
    | false => simp [JVal.isDefined, JVal.castString]; decide
  | num n =>
    rw [hb] at hacc
    by_cases hn : n = 0
    · subst hn
      simp [JVal.isDefined, JVal.castString]
      decide
    · simp [JVal.truthy, JVal.inStrings, JVal.eqStr, VALID_STATUSES, hn] at hacc
  | str t =>
    rw [hb] at hnot
    simp only [JVal.eqStr, beq_eq_false_iff_ne] at hnot
    simp [JVal.isDefined, JVal.castString, hnot]
  | arr l =>
    rw [hb] at hacc
    simp [JVal.truthy, JVal.inStrings, JVal.eqStr, VALID_STATUSES] at hacc
  | obj l =>
    rw [hb] at hacc
    simp [JVal.truthy, JVal.inStrings, JVal.eqStr, VALID_STATUSES] at hacc

theorem eqStr_eq (v : JVal) (lit : String) (h : v.eqStr lit = true) : v = JVal.str lit := by
  cases v <;> simp [JVal.eqStr] at h
  rw [h]

/-- An `updateJob` body that respects the lock keeps a consistent job
consistent. -/
theorem apply_lockConsistent (body : UpdateJobBody) (now : Date) (k : Job)
    (hbody : body.respectsLock = true) (hk : k.lockConsistent) :
    ((buildJobUpdates body now).apply now k).lockConsistent := by
  simp only [UpdateJobBody.respectsLock, Bool.or_eq_true, Bool.and_eq_true,
    Bool.not_eq_true'] at hbody
  rcases hbody with (((h | h) | h) | ⟨⟨h, hby⟩, hat⟩) | ⟨⟨h1, h2⟩, h3⟩
  · have hs := eqStr_eq _ _ h
    simp [Job.lockConsistent, buildJobUpdates, JobUpdates.apply, hs, JVal.eqStr,
      JVal.isDefined, JVal.castString]
  · have hs := eqStr_eq _ _ h
    simp [Job.lockConsistent, buildJobUpdates, JobUpdates.apply, hs, JVal.eqStr,
      JVal.isDefined, JVal.castString]
  · have hs := eqStr_eq _ _ h
    simp [Job.lockConsistent, buildJobUpdates, JobUpdates.apply, hs, JVal.eqStr,
      JVal.isDefined, JVal.castString]
  · have hs := eqStr_eq _ _ h
    cases hlb : body.lockedBy with
    | val w =>
      cases hla : body.lockedAt with
      | val t =>
        simp [Job.lockConsistent, buildJobUpdates, JobUpdates.apply, hs, hlb, hla, JVal.eqStr,
          JVal.isDefined, JVal.castString, Field.isDefined, Field.stored]
      | undefined => simp [hla, Field.isValue] at hat
      | null => simp [hla, Field.isValue] at hat
    | undefined => simp [hlb, Field.isValue] at hby
    | null => simp [hlb, Field.isValue] at hby
  · have hs : body.status = JVal.undefined := by
      cases hb : body.status <;> simp [hb, JVal.isDefined] at h1
      rfl
    have hsame : (buildJobUpdates body now).apply now k
        = { k with
            lastError := (buildJobUpdates body now).lastError.getD k.lastError
            attempts := (buildJobUpdates body now).attempts.getD k.attempts
            updatedAt := now } := by
      simp [buildJobUpdates, JobUpdates.apply, hs, h2, h3, JVal.eqStr, JVal.isDefined]
    rw [hsame]
    exact hk

theorem lockConsistent_step (s : Store) (op : Op)
    (hinv : ∀ j ∈ s.jobs, j.lockConsistent) (hop : op.respectsLock = true) :
    ∀ j ∈ (step s op).jobs, j.lockConsistent := by
  obtain ⟨_, h | ⟨job, h, hst, hby, hat, _⟩ | ⟨i, k, w, now, hi, _, h⟩ |
    ⟨i, k, id, body, now, hopeq, _, _, hi, _, h⟩⟩ := step_jobs s op
  · rw [h]; exact hinv
  · rw [h]
    intro j hj
    rcases List.mem_append.mp hj with hj | hj
    · exact hinv j hj
    · simp only [List.mem_singleton] at hj
      subst hj
      exact ⟨fun hc => by rw [hst] at hc; exact absurd hc (by decide), fun _ => ⟨hby, hat⟩⟩
  · rw [h]
    intro j hj
    rcases List.mem_or_eq_of_mem_set hj with hj | hj
    · exact hinv j hj
    · subst hj
      exact ⟨fun _ => ⟨by simp [claimUpdate], by simp [claimUpdate]⟩,
        fun hc => absurd rfl hc⟩
  · rw [h]
    intro j hj
    rcases List.mem_or_eq_of_mem_set hj with hj | hj
    · exact hinv j hj
    · subst hj
      subst hopeq
      exact apply_lockConsistent body now k hop (hinv k (List.getElem?_mem hi))

theorem lockConsistent_run (ops : List Op) :
    ∀ s : Store, (∀ j ∈ s.jobs, j.lockConsistent) →
      (∀ op ∈ ops, op.respectsLock = true) →
      ∀ j ∈ (run s ops).jobs, j.lockConsistent := by
  induction ops with
  | nil => intro s hinv _; exact hinv
  | cons op ops ih =>
    intro s hinv hops
    exact ih (step s op)
      (lockConsistent_step s op hinv (hops op (List.mem_cons_self _ _)))
      (fun o ho => hops o (List.mem_cons_of_mem _ ho))

/-- C4 (amended). In every store reached from the empty store by a sequence
of `uploadResume`, `requestQuestions`, `claimJob` and `updateJob` requests
(and of requests that do not write jobs), where each `updateJob` body moves
the job to `completed`, `failed` or `queued`, or sets `in_progress` together
with a `lockedBy` and a `lockedAt` value, or carries none of `status`,
`lockedBy` and `lockedAt`, every job has `lockedBy` and `lockedAt` set when
its status is `in_progress` and both null otherwise. -/
theorem reachable_jobs_lockConsistent (ops : List Op)
    (hops : ∀ op ∈ ops, op.respectsLock = true) :
    ∀ j ∈ (run Store.empty ops).jobs, j.lockConsistent :=
  lockConsistent_run ops Store.empty (fun j hj => absurd hj (List.not_mem_nil j)) hops

/-- Witness of C4 (amended) on the trace upload, claim, failure. -/
theorem reachable_jobs_lockConsistent_witness :
    (∀ op ∈ disciplinedTrace, op.respectsLock = true) ∧
    (run Store.empty disciplinedTrace).jobs.length = 1 ∧
    ∀ j ∈ (run Store.empty disciplinedTrace).jobs, j.lockConsistent :=
  ⟨by decide, by decide, reachable_jobs_lockConsistent disciplinedTrace (by decide)⟩

/-- C4 as stated fails: after an upload, the body `{ status: "in_progress" }`
is accepted by `updateJob` (answer 200) and leaves the job `in_progress` with
null `lockedBy` and `lockedAt`. -/
theorem hand_set_in_progress_breaks_lock_invariant :
    (updateJob (run Store.empty [Op.uploadResume (some sampleFile) 100]) 2
        (statusBody (JVal.str "in_progress")) 110).1.code = 200 ∧
    ∃ j ∈ (run Store.empty handLockedTrace).jobs,
      j.status = some "in_progress" ∧ j.lockedBy = none ∧ j.lockedAt = none ∧
      ¬ j.lockConsistent := by
  refine ⟨by decide, (run Store.empty handLockedTrace).jobs.head (by decide), by decide,
    by decide, by decide, by decide, ?_⟩
  intro h
  exact (h.1 (by decide)).1 (by decide)

/-- A job that no longer is `queued` stays so through any request other than
an `updateJob` asking `queued` for it, and new jobs get other ids. -/
theorem not_queued_step (jobId : Id) (s : Store) (op : Op)
    (hid : jobId < s.nextId)
    (hinv : ∀ x ∈ s.jobs, x._id = jobId → x.status ≠ some "queued")
    (hop : Op.requeues jobId op = false) :
    jobId < (step s op).nextId ∧
    ∀ x ∈ (step s op).jobs, x._id = jobId → x.status ≠ some "queued" := by
  obtain ⟨hn, h | ⟨job, h, _, _, _, hfresh⟩ | ⟨i, k, w, now, _, _, h⟩ |
    ⟨i, k, id, body, now, hopeq, hacc, hatt, hi, hkid, h⟩⟩ := step_jobs s op
  · exact ⟨lt_of_lt_of_le hid hn, by rw [h]; exact hinv⟩
  · refine ⟨lt_of_lt_of_le hid hn, ?_⟩
    rw [h]
    intro x hx hxid
    rcases List.mem_append.mp hx with hx | hx
    · exact hinv x hx hxid
    · simp only [List.mem_singleton] at hx
      subst hx
      exact absurd hxid (Nat.ne_of_gt (lt_of_lt_of_le hid hfresh))
  · refine ⟨lt_of_lt_of_le hid hn, ?_⟩
    rw [h]
    intro x hx hxid
    rcases List.mem_or_eq_of_mem_set hx with hx | hx
    · exact hinv x hx hxid
    · subst hx
      simp [claimUpdate]
  · refine ⟨lt_of_lt_of_le hid hn, ?_⟩
    rw [h]
    intro x hx hxid
    rcases List.mem_or_eq_of_mem_set hx with hx | hx
    · exact hinv x hx hxid
    · subst hx
      subst hopeq
      have hk : k._id = jobId := hxid
      have hnot : body.status.eqStr "queued" = false := by
        have hidEq : (id == jobId) = true := by
          rw [beq_iff_eq]; exact hkid.symm.trans hk
        simp only [Op.requeues, hidEq, hatt, Bool.true_and, Bool.not_false, Bool.and_true] at hop
        exact hop
      have hst := buildJobUpdates_status_not_queued body now hacc hnot
      have hkq := hinv k (List.getElem?_mem hi) hk
      show (buildJobUpdates body now).status.getD k.status ≠ some "queued"
      cases hb : (buildJobUpdates body now).status with
      | none => exact hkq
      | some v =>
        rw [hb] at hst
        intro hv
        exact hst (by rw [show v = some "queued" from hv])

theorem not_queued_run (jobId : Id) (ops : List Op) :
    ∀ s : Store, jobId < s.nextId →
      (∀ x ∈ s.jobs, x._id = jobId → x.status ≠ some "queued") →
      (∀ op ∈ ops, Op.requeues jobId op = false) →
      ∀ x ∈ (run s ops).jobs, x._id = jobId → x.status ≠ some "queued" := by
  induction ops with
  | nil => intro s _ hinv _; exact hinv
  | cons op ops ih =>
    intro s hid hinv hops
    obtain ⟨hid', hinv'⟩ := not_queued_step jobId s op hid hinv
      (hops op (List.mem_cons_self _ _))
    exact ih (step s op) hid' hinv' (fun o ho => hops o (List.mem_cons_of_mem _ ho))

/-- In a list with distinct ids, two positions holding jobs of one id are the
same position. -/
theorem index_unique_of_nodup (jobs : List Job)
    (hnodup : (jobs.map (fun j => j._id)).Nodup) (i i' : Nat) (k x : Job)
    (hi : jobs[i]? = some k) (hi' : jobs[i']? = some x) (hid : x._id = k._id) : i' = i := by
  have hl : i < (jobs.map (fun j => j._id)).length := by
    rw [List.length_map]; exact (List.getElem?_eq_some.mp hi).1
  have hl' : i' < (jobs.map (fun j => j._id)).length := by
    rw [List.length_map]; exact (List.getElem?_eq_some.mp hi').1
  have h1 : (jobs.map (fun j => j._id))[i]? = some k._id := by simp [hi]
  have h2 : (jobs.map (fun j => j._id))[i']? = some k._id := by simp [hi', hid]
  have e1 := (List.getElem?_eq_some.mp h1).2
  have e2 := (List.getElem?_eq_some.mp h2).2
  exact (List.Nodup.getElem_inj_iff hnodup).mp (e2.trans e1.symm)

/-- Once a claim has answered with a job, no claim served later answers with
a job of that id, as long as no `updateJob` in between asks `queued` for
it. -/
theorem claimed_not_reclaimed (s : Store) (body : ClaimBody) (now : Date) (tie : TieOrder)
    (job : Job) (ops : List Op) (body' : ClaimBody) (now' : Date) (tie' : TieOrder)
    (job' : Job)
    (hwf : s.WellFormed)
    (hclaim : (claimJob s body now tie).1 = Resp.json 200 job)
    (hops : ∀ op ∈ ops, Op.requeues job._id op = false)
    (hclaim' : (claimJob (run (claimJob s body now tie).2 ops) body' now' tie').1
      = Resp.json 200 job') :
    job'._id ≠ job._id := by
  rcases claimJob_cases s body now tie with ⟨_, hno⟩ | ⟨types, w, k, k', js', _, _, _, hsel, heq⟩
  · exact absurd hclaim (hno job)
  · obtain ⟨hk', _, i, hi, hset, _, _⟩ := findOldestAndUpdate_spec _ _ _ _ _ _ _ hsel
    rw [heq] at hclaim hclaim'
    simp only [Resp.json.injEq, true_and] at hclaim
    subst hclaim
    subst hk'
    have hkmem : k ∈ s.jobs := List.getElem?_mem hi
    have hinv : ∀ x ∈ js', x._id = k._id → x.status ≠ some "queued" := by
      intro x hx hxid
      obtain ⟨n, hn⟩ := List.mem_iff_getElem?.mp hx
      rw [hset, List.getElem?_set] at hn
      by_cases hin : i = n
      · rw [if_pos hin] at hn
        split at hn
        · simp only [Option.some.injEq] at hn
          subst hn
          simp [claimUpdate]
        · exact Option.noConfusion hn
      · rw [if_neg hin] at hn
        exact absurd (index_unique_of_nodup s.jobs hwf.1 i n k x hi hn hxid).symm hin
    have hfinal := not_queued_run k._id ops { s with jobs := js' } (hwf.2 k hkmem) hinv hops
    rcases claimJob_cases (run { s with jobs := js' } ops) body' now' tie' with
      ⟨_, hno⟩ | ⟨types2, w2, k2, k2', js2, _, _, _, hsel2, heq2⟩
    · exact absurd hclaim' (hno job')
    · obtain ⟨hk2', hp2, i2, hi2, _, _, _⟩ := findOldestAndUpdate_spec _ _ _ _ _ _ _ hsel2
      rw [heq2] at hclaim'
      simp only [Resp.json.injEq, true_and] at hclaim'
      subst hclaim'
      subst hk2'
      intro hsame
      simp only [claimFilter, Bool.and_eq_true, beq_iff_eq] at hp2
      exact hfinal k2 (List.getElem?_mem hi2) hsame hp2.1

/-- With one queued `parse_resume` job in the store, the first claim for
`parse_resume` answers with it and the claim after it finds nothing. -/
theorem single_queued_claim (s : Store) (i : Nat) (j : Job) (w w' : String)
    (now now' : Date) (tie tie' : TieOrder)
    (hi : s.jobs[i]? = some j) (hq : j.status = some "queued") (ht : j.type = "parse_resume")
    (honly : ∀ (i' : Nat) (x : Job), s.jobs[i']? = some x → x.status = some "queued" →
      x.type = "parse_resume" → i' = i)
    (hw : w ≠ "") (hw' : w' ≠ "") :
    (claimJob s (parseClaim w) now tie).1 = Resp.json 200 (claimUpdate w now j) ∧
    (claimJob (claimJob s (parseClaim w) now tie).2 (parseClaim w') now' tie').1
      = Resp.empty 204 := by
  have hbody : ∀ v : String, parseClaim v
      = ⟨JVal.arr (["parse_resume"].map JVal.str), JVal.str v⟩ := fun _ => rfl
  have hrec : ∀ t ∈ ["parse_resume"], t = "parse_resume" ∨ t = "generate_questions" := by
    intro t ht'
    simp only [List.mem_singleton] at ht'
    exact Or.inl ht'
  have helig : ∀ x : Job, claimFilter (["parse_resume"].map JVal.str) x = true ↔
      x.status = some "queued" ∧ x.type = "parse_resume" := by
    intro x
    rw [claimFilter_iff]
    simp
  rw [hbody w, hbody w',
    claimJob_of_valid s ["parse_resume"] w now tie (by simp) hrec hw]
  cases hsel : findOldestAndUpdate tie (claimFilter (["parse_resume"].map JVal.str))
      (claimUpdate w now) s.jobs with
  | none =>
    have hall := (findOldestAndUpdate_eq_none _ _ _ _).mp hsel
    have := hall j (List.getElem?_mem hi)
    rw [(helig j).mpr ⟨hq, ht⟩] at this
    exact absurd this (by simp)
  | some r =>
    obtain ⟨k, k', js'⟩ := r
    obtain ⟨hk', hpk, i0, hi0, hset, _, _⟩ := findOldestAndUpdate_spec _ _ _ _ _ _ _ hsel
    have hek := (helig k).mp hpk
    have hi0i : i0 = i := honly i0 k hi0 hek.1 hek.2
    subst hi0i
    rw [hi] at hi0
    simp only [Option.some.injEq] at hi0
    subst hi0
    subst hk'
    refine ⟨rfl, ?_⟩
    simp only
    rw [claimJob_of_valid _ ["parse_resume"] w' now' tie' (by simp) hrec hw']
    have hnone : findOldestAndUpdate tie' (claimFilter (["parse_resume"].map JVal.str))
        (claimUpdate w' now') js' = none := by
      rw [findOldestAndUpdate_eq_none]
      intro x hx
      obtain ⟨n, hn⟩ := List.mem_iff_getElem?.mp hx
      rw [hset, List.getElem?_set] at hn
      by_cases hin : i0 = n
      · rw [if_pos hin] at hn
        split at hn
        · simp only [Option.some.injEq] at hn
          subst hn
          simp [claimFilter, claimUpdate]
        · exact Option.noConfusion hn
      · rw [if_neg hin] at hn
        cases hx' : claimFilter (["parse_resume"].map JVal.str) x with
        | false => rfl
        | true =>
          have he := (helig x).mp hx'
          exact absurd (honly n x hn he.1 he.2).symm hin
    simp only [hnone]

/-- C2 (amended). Once a claim has answered with job `j`, no claim served
later, by any worker and after any requests, answers with `j` unless an
`updateJob` in between set `j` back to `queued`. In particular, when the one
queued `parse_resume` job of the store is `j`, of the calls
`claim(["parse_resume"], workerA)` and `claim(["parse_resume"], workerB)`
served in either order the first receives `j` with `attempts` one more than
`j` had (1 when `j` had 0) and the second receives the empty 204. -/
theorem claim_is_exclusive :
    (∀ (s : Store) (body : ClaimBody) (now : Date) (tie : TieOrder) (job : Job)
        (ops : List Op) (body' : ClaimBody) (now' : Date) (tie' : TieOrder) (job' : Job),
      s.WellFormed → (claimJob s body now tie).1 = Resp.json 200 job →
      (∀ op ∈ ops, Op.requeues job._id op = false) →
      (claimJob (run (claimJob s body now tie).2 ops) body' now' tie').1
        = Resp.json 200 job' →
      job'._id ≠ job._id) ∧
    (∀ (s : Store) (i : Nat) (j : Job) (workerA workerB : String) (nowA nowB : Date)
        (tieA tieB : TieOrder),
      s.jobs[i]? = some j → j.status = some "queued" → j.type = "parse_resume" →
      (∀ (i' : Nat) (x : Job), s.jobs[i']? = some x → x.status = some "queued" →
        x.type = "parse_resume" → i' = i) →
      workerA ≠ "" → workerB ≠ "" →
      ((claimJob s (parseClaim workerA) nowA tieA).1
          = Resp.json 200 (claimUpdate workerA nowA j) ∧
        (claimJob (claimJob s (parseClaim workerA) nowA tieA).2
            (parseClaim workerB) nowB tieB).1
          = Resp.empty 204) ∧
      ((claimJob s (parseClaim workerB) nowB tieB).1
          = Resp.json 200 (claimUpdate workerB nowB j) ∧
        (claimJob (claimJob s (parseClaim workerB) nowB tieB).2
            (parseClaim workerA) nowA tieA).1
          = Resp.empty 204) ∧
      (claimUpdate workerA nowA j)._id = j._id ∧
      (claimUpdate workerB nowB j)._id = j._id ∧
      (claimUpdate workerA nowA j).attempts = j.attempts + 1 ∧
      (claimUpdate workerB nowB j).attempts = j.attempts + 1 ∧
      (j.attempts = 0 →
        (claimUpdate workerA nowA j).attempts = 1 ∧
        (claimUpdate workerB nowB j).attempts = 1)) := by
  refine ⟨?_, ?_⟩
  · intro s body now tie job ops body' now' tie' job' hwf hclaim hops hclaim'
    exact claimed_not_reclaimed s body now tie job ops body' now' tie' job' hwf hclaim hops
      hclaim'
  · intro s i j workerA workerB nowA nowB tieA tieB hi hq ht honly hA hB
    refine ⟨single_queued_claim s i j workerA workerB nowA nowB tieA tieB hi hq ht honly hA hB,
      single_queued_claim s i j workerB workerA nowB nowA tieB tieA hi hq ht honly hB hA,
      rfl, rfl, rfl, rfl, ?_⟩
    intro h0
    simp [claimUpdate, h0]

/-- Witness of C2 (amended). On `queueStore`, after `w1` was given job 1 and
that job failed, the claim of `w2` is given job 0, another job; on
`singleJobStore`, `workerA` is given the job and `workerB` the empty 204. -/
theorem claim_is_exclusive_witness :
    queueStore.WellFormed ∧
    (claimJob queueStore (parseClaim "w1") 30 insertionOrder).1
      = Resp.json 200 (claimUpdate "w1" 30 (mkJob 1 "parse_resume" "queued" 0 10)) ∧
    (claimJob (run (claimJob queueStore (parseClaim "w1") 30 insertionOrder).2
        [Op.updateJob 1 (statusBody (JVal.str "failed")) 35])
        (parseClaim "w2") 40 latestFirst).1
      = Resp.json 200 (claimUpdate "w2" 40 (mkJob 0 "parse_resume" "queued" 0 20)) ∧
    (claimUpdate "w2" 40 (mkJob 0 "parse_resume" "queued" 0 20))._id
      ≠ (claimUpdate "w1" 30 (mkJob 1 "parse_resume" "queued" 0 10))._id ∧
    (claimJob singleJobStore (parseClaim "workerA") 20 insertionOrder).1
      = Resp.json 200 (claimUpdate "workerA" 20 (mkJob 0 "parse_resume" "queued" 0 10)) ∧
    (claimJob (claimJob singleJobStore (parseClaim "workerA") 20 insertionOrder).2
        (parseClaim "workerB") 21 latestFirst).1 = Resp.empty 204 :=
  ⟨by decide, by decide, by decide,
    claim_is_exclusive.1 queueStore (parseClaim "w1") 30 insertionOrder
      (claimUpdate "w1" 30 (mkJob 1 "parse_resume" "queued" 0 10))
      [Op.updateJob 1 (statusBody (JVal.str "failed")) 35] (parseClaim "w2") 40 latestFirst
      (claimUpdate "w2" 40 (mkJob 0 "parse_resume" "queued" 0 20))
      (by decide) (by decide) (by decide) (by decide),
    (claim_is_exclusive.2 singleJobStore 0 (mkJob 0 "parse_resume" "queued" 0 10)
      "workerA" "workerB" 20 21 insertionOrder latestFirst rfl rfl rfl
      (fun i' x h _ _ => by
        cases i' with
        | zero => rfl
        | succ n => simp [singleJobStore, storeOfJobs] at h)
      (by decide) (by decide)).1.1,
    (claim_is_exclusive.2 singleJobStore 0 (mkJob 0 "parse_resume" "queued" 0 10)
      "workerA" "workerB" 20 21 insertionOrder latestFirst rfl rfl rfl
      (fun i' x h _ _ => by
        cases i' with
        | zero => rfl
        | succ n => simp [singleJobStore, storeOfJobs] at h)
      (by decide) (by decide)).1.2⟩

/-- C2 as stated fails: the store left by upload, claim and requeue holds one
queued `parse_resume` job, with `attempts = 1`; whichever of `workerA` and
`workerB` claims first receives it with `attempts = 2`, not 1, and the other
receives the empty 204. -/
theorem requeued_job_claimed_with_two_attempts :
    requeuedStore.jobs.map (fun j => (j._id, j.type, j.status, j.attempts))
      = [(2, "parse_resume", some "queued", 1)] ∧
    (∃ job, (claimJob requeuedStore (parseClaim "workerA") 130 insertionOrder).1 = Resp.json 200 job ∧
      job._id = 2 ∧ job.attempts = 2 ∧ job.attempts ≠ 1) ∧
    (claimJob (claimJob requeuedStore (parseClaim "workerA") 130 insertionOrder).2
        (parseClaim "workerB") 131 insertionOrder).1 = Resp.empty 204 ∧
    (∃ job, (claimJob requeuedStore (parseClaim "workerB") 131 insertionOrder).1 = Resp.json 200 job ∧
      job._id = 2 ∧ job.attempts = 2 ∧ job.attempts ≠ 1) ∧
    (claimJob (claimJob requeuedStore (parseClaim "workerB") 131 insertionOrder).2
        (parseClaim "workerA") 130 insertionOrder).1 = Resp.empty 204 := by
  refine ⟨by decide, ⟨(claimJob requeuedStore (parseClaim "workerA") 130 insertionOrder).2.jobs.head
      (by decide), by decide, by decide, by decide, by decide⟩, by decide,
    ⟨(claimJob requeuedStore (parseClaim "workerB") 131 insertionOrder).2.jobs.head (by decide),
      by decide, by decide, by decide, by decide⟩, by decide⟩

/-! ## Resume upload -/

theorem sum_map_dropWhile_le {α : Type} (w : α → Nat) (p : α → Bool) (l : List α) :
    ((l.dropWhile p).map w).sum ≤ (l.map w).sum := by
  induction l with
  | nil => simp
  | cons a l ih =>
    by_cases hp : p a = true
    · simp only [List.dropWhile_cons, hp, if_true, List.map_cons, List.sum_cons]
      exact le_trans ih (Nat.le_add_left _ _)
    · simp [List.dropWhile_cons, hp]

/-- Trimming never lengthens a string. -/
theorem jsLength_jsTrim_le (t : String) : jsLength (jsTrim t) ≤ jsLength t := by
  unfold jsLength jsTrim
  show ((((t.toList.dropWhile isJsWhiteSpace).reverse.dropWhile isJsWhiteSpace).reverse).map
    (fun c => if c.toNat < 0x10000 then 1 else 2)).sum ≤ _
  rw [List.map_reverse, List.sum_reverse]
  refine le_trans (sum_map_dropWhile_le _ _ _) ?_
  rw [List.map_reverse, List.sum_reverse]
  exact sum_map_dropWhile_le _ _ _

/-- For a supported content type the text is the one the library yields. -/
theorem extractTextFromFile_of_supported (file : UploadedFile)
    (h : SUPPORTED_MIME_TYPES.contains file.mimetype = true) :
    extractTextFromFile file = file.libraryText := by
  simp only [SUPPORTED_MIME_TYPES, List.contains_cons, List.contains_nil, Bool.or_false,
    Bool.or_eq_true] at h
  unfold extractTextFromFile
  rcases h with h | h <;> simp [h]

theorem uploadResume_unsupported (s : Store) (file : UploadedFile) (now : Date)
    (h : SUPPORTED_MIME_TYPES.contains file.mimetype = false) :
    uploadResume s (some file) now = (Resp.error 400 "Unsupported file type", s) := by
  simp only [uploadResume, h]
  simp

theorem uploadResume_too_short (s : Store) (file : UploadedFile) (now : Date)
    (h : SUPPORTED_MIME_TYPES.contains file.mimetype = true)
    (hshort : jsLength (jsTrim file.libraryText) < 50) :
    uploadResume s (some file) now = (Resp.error 400 "Extraction failed", s) := by
  have hc : (jsTrim (extractTextFromFile file) == "" ||
      decide (jsLength (jsTrim (extractTextFromFile file)) < 50)) = true := by
    rw [extractTextFromFile_of_supported file h]
    simp [hshort]
  simp only [uploadResume, h, hc]
  simp

/-- The code points of a string are at most its UTF-16 code units. -/
theorem length_le_jsLength (t : String) : t.length ≤ jsLength t := by
  unfold jsLength
  show t.toList.length ≤ _
  induction t.toList with
  | nil => simp
  | cons c l ih =>
    simp only [List.length_cons, List.map_cons, List.sum_cons]
    split <;> omega

/-- An upload of a supported type whose trimmed text has at least 50
characters inserts one resume, one profile and one job, linked by id. -/
theorem uploadResume_accepted (s : Store) (file : UploadedFile) (now : Date)
    (h : SUPPORTED_MIME_TYPES.contains file.mimetype = true)
    (hlong : 50 ≤ jsLength (jsTrim file.libraryText)) :
    ∃ (resume : Resume) (profile : UserProfile) (job : Job),
      (uploadResume s (some file) now).1
        = Resp.json 201 ⟨"Resume uploaded", resume._id, profile._id, job._id⟩ ∧
      (uploadResume s (some file) now).2.resumes = s.resumes ++ [resume] ∧
      (uploadResume s (some file) now).2.profiles = s.profiles ++ [profile] ∧
      (uploadResume s (some file) now).2.jobs = s.jobs ++ [job] ∧
      (uploadResume s (some file) now).2.questionSets = s.questionSets ∧
      resume.status = "uploaded" ∧ resume.text = jsTrim file.libraryText ∧
      resume.mimeType = file.mimetype ∧ resume.profileId = some profile._id ∧
      profile.status = "draft" ∧ profile.resumeId = some resume._id ∧
      job.type = "parse_resume" ∧ job.status = some "queued" ∧ job.attempts = 0 ∧
      job.resumeId = some resume._id ∧ job.profileId = some profile._id ∧
      job.lockedBy = none ∧ job.lockedAt = none ∧
      resume._id ≠ profile._id ∧ resume._id ≠ job._id ∧ profile._id ≠ job._id := by
  have hne : (jsTrim file.libraryText == "") = false := by
    rw [beq_eq_false_iff_ne]
    intro he
    rw [he] at hlong
    exact absurd hlong (by decide)
  have hc : (jsTrim (extractTextFromFile file) == "" ||
      decide (jsLength (jsTrim (extractTextFromFile file)) < 50)) = false := by
    rw [extractTextFromFile_of_supported file h, hne]
    simp [hlong]
  have heq : uploadResume s (some file) now =
      (Resp.json 201 ⟨"Resume uploaded", s.nextId, s.nextId + 1, s.nextId + 2⟩,
        { s with
          resumes := s.resumes ++ [⟨s.nextId, file.originalname, file.mimetype, file.size,
            jsTrim file.libraryText, "uploaded", some (s.nextId + 1), now, now⟩]
          profiles := s.profiles ++
            [⟨s.nextId + 1, some s.nextId, [], [], [], "draft", "manual", none, now, now⟩]
          jobs := s.jobs ++ [⟨s.nextId + 2, "parse_resume", some "queued", some s.nextId,
            some (s.nextId + 1), none, none, none, none, none, 0, none, now, now⟩]
          nextId := s.nextId + 3 }) := by
    simp only [uploadResume, h, hc, Bool.not_true, Bool.false_eq_true, if_false]
    rw [extractTextFromFile_of_supported file h]
  rw [heq]
  refine ⟨⟨s.nextId, file.originalname, file.mimetype, file.size, jsTrim file.libraryText,
      "uploaded", some (s.nextId + 1), now, now⟩,
    ⟨s.nextId + 1, some s.nextId, [], [], [], "draft", "manual", none, now, now⟩,
    ⟨s.nextId + 2, "parse_resume", some "queued", some s.nextId, some (s.nextId + 1), none,
      none, none, none, none, 0, none, now, now⟩,
    rfl, rfl, rfl, rfl, rfl, rfl, rfl, rfl, rfl, rfl, rfl, rfl, rfl, rfl, rfl, rfl, rfl, rfl,
    ?_, ?_, ?_⟩ <;> simp

/-- C11. Characters are counted as the handler counts them (`length`, UTF-16
code units). An upload of a supported content type whose extracted text is
shorter than 50 characters, or is so once trimmed, is answered 400
"Extraction failed", and an upload of an unsupported content type 400
"Unsupported file type"; in both cases the store, its resume, profile and
job collections included, is left as it was. An upload of a supported type
whose trimmed text has at least 50 characters is answered 201 and appends
exactly one resume (status `uploaded`), one profile (status `draft`), each
holding the id of the other, and one `parse_resume` job, `queued`, with
`attempts = 0`, holding the ids of both. -/
theorem uploadResume_rejects_or_creates (s : Store) (file : UploadedFile) (now : Date) :
    (SUPPORTED_MIME_TYPES.contains file.mimetype = true →
      (jsLength (extractTextFromFile file) < 50 ∨
        jsLength (jsTrim (extractTextFromFile file)) < 50) →
      (uploadResume s (some file) now).1 = Resp.error 400 "Extraction failed" ∧
      (uploadResume s (some file) now).2 = s ∧
      (uploadResume s (some file) now).2.resumes = s.resumes ∧
      (uploadResume s (some file) now).2.profiles = s.profiles ∧
      (uploadResume s (some file) now).2.jobs = s.jobs) ∧
    (SUPPORTED_MIME_TYPES.contains file.mimetype = false →
      (uploadResume s (some file) now).1 = Resp.error 400 "Unsupported file type" ∧
      (uploadResume s (some file) now).2 = s ∧
      (uploadResume s (some file) now).2.resumes = s.resumes ∧
      (uploadResume s (some file) now).2.profiles = s.profiles ∧
      (uploadResume s (some file) now).2.jobs = s.jobs) ∧
    (SUPPORTED_MIME_TYPES.contains file.mimetype = true →
      50 ≤ jsLength (jsTrim (extractTextFromFile file)) →
      ∃ (resume : Resume) (profile : UserProfile) (job : Job),
        (uploadResume s (some file) now).1
          = Resp.json 201 ⟨"Resume uploaded", resume._id, profile._id, job._id⟩ ∧
        (uploadResume s (some file) now).2.resumes = s.resumes ++ [resume] ∧
        (uploadResume s (some file) now).2.profiles = s.profiles ++ [profile] ∧
        (uploadResume s (some file) now).2.jobs = s.jobs ++ [job] ∧
        (uploadResume s (some file) now).2.questionSets = s.questionSets ∧
        resume.status = "uploaded" ∧ resume.text = jsTrim (extractTextFromFile file) ∧
        resume.profileId = some profile._id ∧
        profile.status = "draft" ∧ profile.resumeId = some resume._id ∧
        job.type = "parse_resume" ∧ job.status = some "queued" ∧ job.attempts = 0 ∧
        job.resumeId = some resume._id ∧ job.profileId = some profile._id ∧
        resume._id ≠ profile._id ∧ resume._id ≠ job._id ∧ profile._id ≠ job._id) := by
  refine ⟨?_, ?_, ?_⟩
  · intro hsup hshort
    have hex := extractTextFromFile_of_supported file hsup
    rw [hex] at hshort
    have hlt : jsLength (jsTrim file.libraryText) < 50 := by
      rcases hshort with h | h
      · exact lt_of_le_of_lt (jsLength_jsTrim_le _) h
      · exact h
    rw [uploadResume_too_short s file now hsup hlt]
    exact ⟨rfl, rfl, rfl, rfl, rfl⟩
  · intro hunsup
    rw [uploadResume_unsupported s file now hunsup]
    exact ⟨rfl, rfl, rfl, rfl, rfl⟩
  · intro hsup hlong
    have hex := extractTextFromFile_of_supported file hsup
    rw [hex] at hlong ⊢
    obtain ⟨resume, profile, job, h1, h2, h3, h4, h5, h6, h7, _, h8, h9, h10, h11, h12, h13,
      h14, h15, _, _, h16, h17, h18⟩ := uploadResume_accepted s file now hsup hlong
    exact ⟨resume, profile, job, h1, h2, h3, h4, h5, h6, h7, h8, h9, h10, h11, h12, h13, h14,
      h15, h16, h17, h18⟩

/-- Witness of C11: the PDF with the 10-character text `short text` and the
`text/plain` upload are refused and leave `profileStore "draft"` as it was;
`sampleFile` on the empty store yields one resume, one profile and one job. -/
theorem uploadResume_rejects_or_creates_witness :
    SUPPORTED_MIME_TYPES.contains shortFile.mimetype = true ∧
    jsLength (extractTextFromFile shortFile) = 10 ∧
    (uploadResume (profileStore "draft") (some shortFile) 5).1
      = Resp.error 400 "Extraction failed" ∧
    (uploadResume (profileStore "draft") (some shortFile) 5).2 = profileStore "draft" ∧
    SUPPORTED_MIME_TYPES.contains plainTextFile.mimetype = false ∧
    (uploadResume (profileStore "draft") (some plainTextFile) 5).2 = profileStore "draft" ∧
    50 ≤ jsLength (jsTrim (extractTextFromFile sampleFile)) ∧
    ∃ (resume : Resume) (profile : UserProfile) (job : Job),
      (uploadResume Store.empty (some sampleFile) 100).2.resumes = [resume] ∧
      (uploadResume Store.empty (some sampleFile) 100).2.profiles = [profile] ∧
      (uploadResume Store.empty (some sampleFile) 100).2.jobs = [job] :=
  ⟨by decide, by decide,
    ((uploadResume_rejects_or_creates (profileStore "draft") shortFile 5).1
      (by decide) (Or.inl (by decide))).1,
    ((uploadResume_rejects_or_creates (profileStore "draft") shortFile 5).1
      (by decide) (Or.inl (by decide))).2.1,
    by decide,
    ((uploadResume_rejects_or_creates (profileStore "draft") plainTextFile 5).2.1
      (by decide)).2.1,
    by decide,
    match (uploadResume_rejects_or_creates Store.empty sampleFile 100).2.2
        (by decide) (by decide) with
    | ⟨resume, profile, job, _, h2, h3, h4, _⟩ => ⟨resume, profile, job, h2, h3, h4⟩⟩

end ProfileParse
